import Mathlib

/-!
Verification development for the NullScript bidirectional lexical
transpilation engine (keyword table, forward rewrite pipeline, syntax
validator, reverse pipeline, conversion-quality scorer).

The Rust sources drive every pass with `regex::Regex::replace_all` over a
small, fixed family of pattern shapes (word-bounded literals, `\s*`/`\s+`
gaps, identifier captures, `[^c]*` captures, optional `<...>` groups, ...).
We embed that fragment as explicit scanners over `List Char` with exactly
the leftmost, non-overlapping, greedy semantics the `regex` crate gives
these patterns (every star/option in the used patterns is followed by a
character it can never consume, so greedy maximal munch is exact).
-/

namespace NullScript

/-- `\w` of the `regex` crate restricted to the ASCII inputs at hand:
alphanumeric or underscore. -/
def isWordChar (c : Char) : Bool := c.isAlphanum || c = '_'

/-- `\s` of the `regex` crate: space, tab, newline, carriage return,
vertical tab, form feed. -/
def isWsChar (c : Char) : Bool :=
  c = ' ' || c = '\t' || c = '\n' || c = '\r' || c = '\x0b' || c = '\x0c'

/-- First character of a Rust-style identifier: `[a-zA-Z_$]`. -/
def isAlphaDollar (c : Char) : Bool := c.isAlpha || c = '_' || c = '$'

/-- Continuation character of a Rust-style identifier: `[\w$]`. -/
def isWordDollar (c : Char) : Bool := isWordChar c || c = '$'

/-- Character classes appearing in the transpiler's patterns. -/
inductive CP where
  | wordDollar   -- `[\w$]`
  | alphaDollar  -- `[a-zA-Z_$]`
  | wordC        -- `\w`
  | typeChars    -- `[\w$<>|[\]\s]`
  | eqCommaParen -- `[=,)]`
  | nonNl        -- `[^\n]` (what `.` matches)
  | nonParen     -- `[^)]`
  | nonSemi      -- `[^;]`
  | nonRBracket  -- `[^\]]`
  deriving DecidableEq, Repr

def evalCP : CP → Char → Bool
  | .wordDollar, c => isWordDollar c
  | .alphaDollar, c => isAlphaDollar c
  | .wordC, c => isWordChar c
  | .typeChars, c => isWordDollar c || c = '<' || c = '>' || c = '|' ||
      c = '[' || c = ']' || isWsChar c
  | .eqCommaParen, c => c = '=' || c = ',' || c = ')'
  | .nonNl, c => c ≠ '\n'
  | .nonParen, c => c ≠ ')'
  | .nonSemi, c => c ≠ ';'
  | .nonRBracket, c => c ≠ ']'

/-- Tokens of the embedded pattern language. -/
inductive Tok where
  | lit : List Char → Tok         -- literal characters
  | wb : Tok                      -- `\b`
  | lineStart : Tok               -- `(?m)^`
  | ws0 : Tok                     -- `\s*`
  | ws1 : Tok                     -- `\s+`
  | wsMin4 : Tok                  -- `\s{4,}`
  | chStar : Char → Tok           -- `c*` for a single character c
  | one : CP → Tok                -- single character of a class
  | star : CP → Tok               -- greedy star of a class
  | plus : CP → Tok               -- greedy plus of a class
  | optAngle : Tok                -- `(?:<[^>]*>)?`
  | identPath : Tok               -- `[a-zA-Z_$][\w$]*(?:\.[a-zA-Z_$][\w$]*)*(?:\[[^\]]+\])?`
  | alt : List (List Char) → Tok  -- `(w1|w2|...)` over literal words
  deriving Repr

/-- A pattern item: a bare token or a capturing group of tokens. -/
inductive Item where
  | tok : Tok → Item
  | grp : List Tok → Item
  deriving Repr

def countWhile (p : Char → Bool) (l : List Char) : Nat :=
  (l.takeWhile p).length

/-- Is there a word boundary between the previous character and the
next one?  `none` stands for the edge of the text. -/
def boundary (prev : Option Char) (next : Option Char) : Bool :=
  (match prev with | none => false | some c => isWordChar c) ≠
  (match next with | none => false | some c => isWordChar c)

/-- Length of an ident segment `[a-zA-Z_$][\w$]*`, if one starts here. -/
def identSeg : List Char → Option Nat
  | [] => none
  | c :: r => if isAlphaDollar c then some (1 + countWhile isWordDollar r) else none

/-- Length consumed by `(?:\.[a-zA-Z_$][\w$]*)*` (greedy). -/
def dotSegs : Nat → List Char → Nat
  | 0, _ => 0
  | fuel + 1, s =>
    match s with
    | '.' :: r =>
      match identSeg r with
      | some n => (1 + n) + dotSegs fuel (r.drop n)
      | none => 0
    | _ => 0

/-- Length consumed by `(?:\[[^\]]+\])?` (greedy, optional). -/
def brackOpt (s : List Char) : Nat :=
  match s with
  | '[' :: r =>
    let n := countWhile (fun c => c ≠ ']') r
    if 1 ≤ n ∧ (r.drop n).head? = some ']' then n + 2 else 0
  | _ => 0

/-- Length of a full `remove`-operand path, if one starts here. -/
def identPathLen (s : List Char) : Option Nat :=
  match identSeg s with
  | none => none
  | some n =>
    let m := dotSegs s.length (s.drop n)
    let b := brackOpt (s.drop (n + m))
    some (n + m + b)

/-- Match one token at the head of `s`; `prev` is the character just
before `s` in the original text.  Returns the number of characters
consumed. -/
def matchTok (t : Tok) (s : List Char) (prev : Option Char) : Option Nat :=
  match t with
  | .lit l => if l.isPrefixOf s then some l.length else none
  | .wb => if boundary prev s.head? then some 0 else none
  | .lineStart =>
    match prev with
    | none => some 0
    | some c => if c = '\n' then some 0 else none
  | .ws0 => some (countWhile isWsChar s)
  | .ws1 =>
    let n := countWhile isWsChar s
    if n = 0 then none else some n
  | .wsMin4 =>
    let n := countWhile isWsChar s
    if n < 4 then none else some n
  | .chStar c => some (countWhile (fun d => d = c) s)
  | .one p =>
    match s with
    | [] => none
    | c :: _ => if evalCP p c then some 1 else none
  | .star p => some (countWhile (evalCP p) s)
  | .plus p =>
    let n := countWhile (evalCP p) s
    if n = 0 then none else some n
  | .optAngle =>
    match s with
    | '<' :: r =>
      let n := countWhile (fun c => c ≠ '>') r
      if (r.drop n).head? = some '>' then some (n + 2) else some 0
    | _ => some 0
  | .identPath => identPathLen s
  | .alt ws =>
    match ws.find? (fun w => w.isPrefixOf s) with
    | some w => some w.length
    | none => none

/-- Match a token list; returns total consumed length and the character
preceding the rest of the text. -/
def matchToks : List Tok → List Char → Option Char → Option (Nat × Option Char)
  | [], _, prev => some (0, prev)
  | t :: ts, s, prev =>
    match matchTok t s prev with
    | none => none
    | some n =>
      let prev' := if n = 0 then prev else (s.take n).getLast?
      match matchToks ts (s.drop n) prev' with
      | none => none
      | some (m, p) => some (n + m, p)

/-- Match an item list; returns total consumed length and the list of
captured group texts, in order. -/
def matchItems : List Item → List Char → Option Char → Option (Nat × List (List Char))
  | [], _, _ => some (0, [])
  | .tok t :: rest, s, prev =>
    match matchTok t s prev with
    | none => none
    | some n =>
      let prev' := if n = 0 then prev else (s.take n).getLast?
      match matchItems rest (s.drop n) prev' with
      | none => none
      | some (m, caps) => some (n + m, caps)
  | .grp ts :: rest, s, prev =>
    match matchToks ts s prev with
    | none => none
    | some (n, prev') =>
      match matchItems rest (s.drop n) prev' with
      | none => none
      | some (m, caps) => some (n + m, s.take n :: caps)

/-- Replacement templates: literal pieces and `$i` group references. -/
inductive TItem where
  | s : List Char → TItem
  | g : Nat → TItem
  deriving Repr

def render (tm : List TItem) (caps : List (List Char)) : List Char :=
  match tm with
  | [] => []
  | .s x :: rest => x ++ render rest caps
  | .g i :: rest => caps.getD (i - 1) [] ++ render rest caps

/-- Replacement functions receive the text the pass started from, the
absolute byte position of the match, the whole matched text and the
captures (mirroring `regex::Captures`). -/
abbrev RF := List Char → Nat → List Char → List (List Char) → List Char

/-- The `replace_all` scanner: leftmost match, non-overlapping, continue
after each match.  `fuel` only ensures structural termination; it is
always at least the remaining length plus one. -/
def scanAux (items : List Item) (f : RF) (orig : List Char) :
    Nat → List Char → Option Char → Nat → List Char
  | 0, s, _, _ => s
  | _ + 1, [], _, _ => []
  | fuel + 1, c :: rest, prev, pos =>
    match matchItems items (c :: rest) prev with
    | some (n, caps) =>
      if n = 0 then c :: scanAux items f orig fuel rest (some c) (pos + 1)
      else
        f orig pos ((c :: rest).take n) caps ++
          scanAux items f orig fuel ((c :: rest).drop n)
            ((c :: rest).take n).getLast? (pos + n)
    | none => c :: scanAux items f orig fuel rest (some c) (pos + 1)

def replaceAllF (items : List Item) (f : RF) (s : List Char) : List Char :=
  scanAux items f s (s.length + 1) s none 0

def replaceAll (items : List Item) (tm : List TItem) (s : List Char) : List Char :=
  replaceAllF items (fun _ _ _ caps => render tm caps) s

/-- Anchored search used by the validator's `^`-patterns (Rust `Regex`
without `(?m)`: `^` only matches at the start of the text). -/
def matchAtStart (items : List Item) (s : List Char) : Option (Nat × List (List Char)) :=
  matchItems items s none

end NullScript

namespace NullScript

/-! ### Generic string helpers mirroring the Rust std functions used -/

/-- `str::split('\n')` — keeps empty segments, including a trailing one. -/
def splitNl : List Char → List (List Char)
  | [] => [[]]
  | c :: rest =>
    if c = '\n' then [] :: splitNl rest
    else
      match splitNl rest with
      | g :: gs => (c :: g) :: gs
      | [] => [[c]]

/-- `str::contains(pat)`: substring test. -/
def containsSub (pat : List Char) : List Char → Bool
  | [] => pat.isPrefixOf []
  | c :: rest => pat.isPrefixOf (c :: rest) || containsSub pat rest

/-- `str::trim_start()`. -/
def trimStart (l : List Char) : List Char := l.dropWhile isWsChar

/-- `str::trim()`. -/
def trim (l : List Char) : List Char :=
  ((l.dropWhile isWsChar).reverse.dropWhile isWsChar).reverse

def strReplaceAux (pat rep : List Char) : Nat → List Char → List Char
  | 0, s => s
  | _ + 1, [] => []
  | fuel + 1, c :: rest =>
    if pat.isPrefixOf (c :: rest) then
      rep ++ strReplaceAux pat rep fuel ((c :: rest).drop pat.length)
    else c :: strReplaceAux pat rep fuel rest

/-- `str::replace(pat, rep)`: replace every (leftmost, non-overlapping)
occurrence. -/
def strReplace (pat rep s : List Char) : List Char :=
  if pat = [] then s else strReplaceAux pat rep (s.length + 1) s

/-- Unanchored search: is there a match of `items` anywhere in `s`
(`Regex::is_match`)? -/
def findFrom (items : List Item) : Nat → List Char → Option Char → Bool
  | 0, _, _ => false
  | _ + 1, [], prev => (matchItems items [] prev).isSome
  | fuel + 1, c :: rest, prev =>
    (matchItems items (c :: rest) prev).isSome ||
      findFrom items fuel rest (some c)

def isMatch (items : List Item) (s : List Char) : Bool :=
  findFrom items (s.length + 1) s none

/-- All matches of `items` in `s`, as capture lists (`captures_iter`). -/
def capturesFrom (items : List Item) : Nat → List Char → Option Char → List (List (List Char))
  | 0, _, _ => []
  | _ + 1, [], prev =>
    match matchItems items [] prev with
    | some (_, caps) => [caps]
    | none => []
  | fuel + 1, c :: rest, prev =>
    match matchItems items (c :: rest) prev with
    | some (n, caps) =>
      if n = 0 then caps :: capturesFrom items fuel rest (some c)
      else caps :: capturesFrom items fuel ((c :: rest).drop n) ((c :: rest).take n).getLast?
    | none => capturesFrom items fuel rest (some c)

def capturesIter (items : List Item) (s : List Char) : List (List (List Char)) :=
  capturesFrom items (s.length + 1) s none

/-! ### The keyword table of `src/core/keywords.rs` (`NullScriptKeywords::new`)

Each category is the insertion sequence of its `HashMap`; `get_all_keywords`
merges the categories in the order of `all_categories` (keys are pairwise
distinct across categories, so the merged association list is the merged
map). -/

def controlFlowKws : List (String × String) :=
  [("checkthis", "if"), ("orelse", "else"), ("loopin", "for"),
   ("whilevibe", "while"), ("switchup", "switch"), ("whenits", "case"),
   ("otherwise", "default"), ("keepgoing", "continue"), ("stopit", "break")]

def errorHandlingKws : List (String × String) :=
  [("oops", "try"), ("oop", "try"), ("mybad", "catch"), ("anyway", "finally")]

def variableKws : List (String × String) :=
  [("maybe", "let"), ("definitely", "const"), ("mayhap", "var")]

def importKws : List (String × String) := [("gimme", "import"), ("yeet", "export")]

def typeKws : List (String × String) :=
  [("vibes", "interface"), ("vibe", "type"), ("mood", "enum"), ("bigbrain", "class")]

def valueKws : List (String × String) :=
  [("fr", "true"), ("cap", "false"), ("nocap", "null"), ("ghost", "undefined"),
   ("sus", "any")]

def objectKws : List (String × String) :=
  [("dis", "this"), ("parent", "super"), ("fresh", "new"), ("remove", "delete")]

def operatorKws : List (String × String) :=
  [("and", "&&"), ("or", "||"), ("not", "!"), ("is", "==="), ("aint", "!=="),
   ("bigger", ">"), ("smaller", "<"), ("biggereq", ">="), ("smallereq", "<=")]

def functionsKws : List (String × String) := [("pls", "return")]

def otherKws : List (String × String) :=
  [("with", "with"), ("in", "in"), ("of", "of"), ("as", "as"), ("from", "from")]

def multiWordKws : List (String × String) := [("orsomething", "else if")]

def functionDeclKws : List (String × String) :=
  [("feels async", "async function"), ("feels", "function")]

def getAllKeywords : List (String × String) :=
  controlFlowKws ++ errorHandlingKws ++ variableKws ++ importKws ++ typeKws ++
  valueKws ++ objectKws ++ operatorKws ++ functionsKws ++ otherKws ++
  multiWordKws ++ functionDeclKws

/-! ### Errors (`NullScriptError`, reduced to the data the engine produces) -/

inductive NullScriptError where
  | syntaxErr (message : String) (line : Option Nat)
  | ioErr
  deriving DecidableEq, Repr

/-! ### `NullScriptTranspiler::transpile` of `src/transpiler.rs` -/

/-- `\b{alias}\s+([a-zA-Z_$][\w$]*)` for the `async`-containing alias. -/
def feelsAsyncPat (al : List Char) : List Item :=
  [.tok .wb, .tok (.lit al), .tok .ws1,
   .grp [.one .alphaDollar, .star .wordDollar]]

/-- `\b{alias}\s+([a-zA-Z_$][\w$]*)\s*(?:<[^>]*>)?\s*\(`. -/
def feelsNamedPat (al : List Char) : List Item :=
  [.tok .wb, .tok (.lit al), .tok .ws1,
   .grp [.one .alphaDollar, .star .wordDollar],
   .tok .ws0, .tok .optAngle, .tok .ws0, .tok (.lit ['('])]

/-- `\b{alias}\s*\(`. -/
def feelsAnonPat (al : List Char) : List Item :=
  [.tok .wb, .tok (.lit al), .tok .ws0, .tok (.lit ['('])]

/-- The replacement closure of the non-async function-declaration pass:
looks up the line holding the match in the pass's input text and keeps or
drops the function keyword according to the line's leading whitespace. -/
def feelsRepl (al ts : List Char) : RF := fun orig pos whole _caps =>
  let lines := splitNl orig
  let lineIdx := (orig.take pos).count '\n'
  let core := trimStart (strReplace al [] whole)
  if lineIdx < lines.length then
    let indent := (lines.getD lineIdx []).takeWhile isWsChar
    if indent ≠ [] then core else ts ++ ' ' :: core
  else ts ++ ' ' :: core

/-- One iteration of the function-declaration loop. -/
def functionPass (al ts : List Char) (s : List Char) : List Char :=
  if containsSub "async".data al then
    replaceAll (feelsAsyncPat al) [.s ts, .s [' '], .g 1] s
  else
    let s1 := replaceAllF (feelsNamedPat al) (feelsRepl al ts) s
    replaceAll (feelsAnonPat al) [.s (ts ++ ['('])] s1

/-- `\bremove\s+([a-zA-Z_$][\w$]*(?:\.[a-zA-Z_$][\w$]*)*(?:\[[^\]]+\])?)\b`. -/
def removePat : List Item :=
  [.tok .wb, .tok (.lit "remove".data), .tok .ws1, .grp [.identPath], .tok .wb]

/-- `\b{alias}\b`. -/
def wordPat (al : List Char) : List Item :=
  [.tok .wb, .tok (.lit al), .tok .wb]

/-- One iteration of the regular-keyword loop (with its `feels`,
`feels async` and `remove` special cases). -/
def genericEntryPass (al ts : List Char) (s : List Char) : List Char :=
  if al = "feels".data ∨ al = "feels async".data then s
  else if al = "remove".data then
    replaceAll removePat [.s "delete ".data, .g 1] s
  else replaceAll (wordPat al) [.s ts] s

/-- One iteration of the multi-word loop: `\b{alias}\s+` → `"{ts} "`. -/
def multiWordPass (al ts : List Char) (s : List Char) : List Char :=
  replaceAll [.tok .wb, .tok (.lit al), .tok .ws1] [.s ts, .s [' ']] s

/-- `transpile`, parameterised by the iteration orders of the three
`HashMap`s it walks (Rust `HashMap` iteration order is arbitrary). -/
def transpileWith (fnKws kws mwKws : List (String × String)) (source : String) :
    Except NullScriptError String :=
  let o1 := fnKws.foldl (fun acc p => functionPass p.1.data p.2.data acc) source.data
  let o2 := kws.foldl (fun acc p => genericEntryPass p.1.data p.2.data acc) o1
  let o3 := mwKws.foldl (fun acc p => multiWordPass p.1.data p.2.data acc) o2
  .ok ⟨o3⟩

/-- `transpile` with the tables in their declaration order. -/
def transpile (source : String) : Except NullScriptError String :=
  transpileWith functionDeclKws getAllKeywords multiWordKws source

end NullScript

namespace NullScript

/-! ### `NullScriptTranspiler::validate_syntax` of `src/transpiler.rs` -/

/-- The 17 `invalid_patterns` regexes, in their declaration order. -/
def invalidPatternsV1 : List (List Item) :=
  [[.tok .wb, .tok (.lit "function".data), .tok .ws1, .tok (.plus .wordC), .tok .ws0, .tok (.lit ['('])],
   [.tok .wb, .tok (.lit "const".data), .tok .ws1, .tok (.plus .wordC)],
   [.tok .wb, .tok (.lit "let".data), .tok .ws1, .tok (.plus .wordC)],
   [.tok .wb, .tok (.lit "var".data), .tok .ws1, .tok (.plus .wordC)],
   [.tok .wb, .tok (.lit "if".data), .tok .ws0, .tok (.lit ['('])],
   [.tok .wb, .tok (.lit "else".data), .tok .ws1],
   [.tok .wb, .tok (.lit "return".data), .tok .ws1],
   [.tok .wb, .tok (.lit "true".data), .tok .wb],
   [.tok .wb, .tok (.lit "false".data), .tok .wb],
   [.tok .wb, .tok (.lit "null".data), .tok .wb],
   [.tok .wb, .tok (.lit "undefined".data), .tok .wb],
   [.tok .wb, .tok (.lit "interface".data), .tok .ws1, .tok (.plus .wordC)],
   [.tok .wb, .tok (.lit "type".data), .tok .ws1, .tok (.plus .wordC)],
   [.tok .wb, .tok (.lit "class".data), .tok .ws1, .tok (.plus .wordC)],
   [.tok .wb, .tok (.lit "try".data), .tok .ws0, .tok (.lit ['\x7b'])],
   [.tok .wb, .tok (.lit "catch".data), .tok .ws0, .tok (.lit ['('])],
   [.tok .wb, .tok (.lit "finally".data), .tok .ws0, .tok (.lit ['\x7b'])]]

/-- `^(\w+)\s+\w+\s*=` (anchored: no `(?m)`, so `^` is text start). -/
def unknownKeywordPat : List Item :=
  [.grp [.plus .wordC], .tok .ws1, .tok (.plus .wordC), .tok .ws0, .tok (.lit ['='])]

def invalidSyntaxMsgV1 (ln : Nat) : String :=
  "Invalid syntax on line " ++ toString ln ++
  ": You\x27re using standard TypeScript/JavaScript syntax instead of NullScript keywords.\n💡 Run \x27nullc keywords\x27 to see the correct NullScript syntax."

def unknownKeywordMsgV1 (kw : String) (ln : Nat) : String :=
  "Unknown keyword \x27" ++ kw ++ "\x27 on line " ++ toString ln ++
  ".\n💡 Use valid NullScript keywords. Run \x27nullc keywords\x27 to see all available options."

def validKeywordsV1 : List String := ["export", "import", "from", "as"]

def validateLinesV1 : Nat → List (List Char) → Except NullScriptError Unit
  | _, [] => .ok ()
  | i, line :: rest =>
    let ln := i + 1
    let t := trim line
    if t = [] ∨ "//".data.isPrefixOf t ∨ "/*".data.isPrefixOf t then
      validateLinesV1 (i + 1) rest
    else if invalidPatternsV1.any (fun p => isMatch p t) then
      .error (.syntaxErr (invalidSyntaxMsgV1 ln) (some ln))
    else
      match matchAtStart unknownKeywordPat t with
      | some (_, caps) =>
        let kw : String := ⟨caps.getD 0 []⟩
        if (getAllKeywords.any (fun p => p.1 = kw)) ∨ validKeywordsV1.contains kw then
          validateLinesV1 (i + 1) rest
        else .error (.syntaxErr (unknownKeywordMsgV1 kw ln) (some ln))
      | none => validateLinesV1 (i + 1) rest

/-- `validate_syntax` (file-path argument dropped: it only decorates the
error with a path). -/
def validateSyntax (source : String) : Except NullScriptError Unit :=
  validateLinesV1 0 (splitNl source.data)

/-! ### `NullScriptTranspiler::transpile_file` of `src/transpiler.rs`

The file system is an association list from paths to file contents; a
write prepends (so a later lookup sees the newest contents). -/

abbrev FSm := List (String × String)

/-- `transpile_file`: read, validate, transpile, write — returning the
result together with the file system after the call. -/
def transpileFileFS (fs : FSm) (inputPath outputPath : String) :
    Except NullScriptError String × FSm :=
  match List.lookup inputPath fs with
  | none => (.error .ioErr, fs)
  | some src =>
    match validateSyntax src with
    | .error e => (.error e, fs)
    | .ok _ =>
      match transpile src with
      | .error e => (.error e, fs)
      | .ok t => (.ok t, (outputPath, t) :: fs)

end NullScript

namespace NullScript

/-! ### The `language/keywords.rs` tables

The module `src/language/keywords.rs` itself is not in the source tree;
only its consumers are.  Its three tables are reconstructed below. -/

/-- Modelled from the spec: the static `KEYWORDS` array (dialect alias →
canonical token) of the missing `language/keywords.rs`, §4.1/§2 of the
spec; contents and alias choices are fixed by the inverse map the
in-tree `ReverseTranspiler::new` builds from it, the `run`-pipeline's
special cases, and the in-tree completion/doc tables. -/
def nsKEYWORDS : List (String × String) :=
  [("run", "function"), ("fixed", "const"), ("whatever", "if"),
   ("otherwise", "else"), ("since", "for"), ("when", "while"),
   ("test", "try"), ("grab", "catch"), ("atLast", "finally"),
   ("model", "class"), ("use", "import"), ("share", "export"),
   ("yes", "true"), ("no", "false"), ("self", "this"),
   ("parent", "super"), ("fresh", "new"), ("remove", "delete"),
   ("hold", "await"), ("later", "async"), ("stop", "break"),
   ("keepgoing", "continue"), ("done", "default"), ("what", "typeof"),
   ("kind", "instanceof"), ("inside", "in"), ("is", "==="),
   ("isnt", "!=="), ("and", "&&"), ("or", "||"), ("not", "!"),
   ("result", "return"), ("speak", "console"), ("maths", "Math"),
   ("switch", "switch"), ("case", "case"), ("let", "let"), ("var", "var")]

/-- Modelled from the spec: the `FORBIDDEN_KEYWORDS` list of the missing
`language/keywords.rs` — canonical keywords with no legitimate dialect
use (§4.2 step 2 names `if`, `function`, `class` and interface/enum
declarations as the examples). -/
def FORBIDDEN_KEYWORDS : List String :=
  ["if", "function", "class", "interface", "enum"]

/-- Modelled from the spec: the `INVALID_SYNTAX` list of the missing
`language/keywords.rs` — type-annotation punctuation fragments (§4.2
step 2: type-annotation colons and generic angle brackets). -/
def INVALID_SYNTAX : List String :=
  [": string", ": number", ": boolean", "<T>"]

/-! ### `NullScriptTranspiler::transpile` of `src/compiler/transpiler/mod.rs` -/

/-- Shorthand: literal token item. -/
def TL (s : String) : Item := .tok (.lit s.data)

/-- Shorthand: captured identifier `([a-zA-Z_$][\w$]*)`. -/
def identG : Item := .grp [.one .alphaDollar, .star .wordDollar]

/-- Shorthand: captured `([^)]*)`. -/
def parenG : Item := .grp [.star .nonParen]

/-- Shorthand: `\s+` item. -/
def W1 : Item := .tok .ws1

/-- Shorthand: `\s*` item. -/
def W0 : Item := .tok .ws0

/-- Shorthand: `\b` item. -/
def WB : Item := .tok .wb

/-- Shorthand: captured `(\s{4,})`. -/
def ind4G : Item := .grp [.wsMin4]

/-- The keyword loop of the `run` pipeline (skips `run` and `remove`). -/
def compilerKeywordPass (kws : List (String × String)) (s : List Char) : List Char :=
  kws.foldl (fun acc p =>
    if p.1 = "run" ∨ p.1 = "remove" then acc
    else replaceAll (wordPat p.1.data) [.s p.2.data] acc) s

/-- The ordered pass sequence of
`NullScriptTranspiler::transpile` (`src/compiler/transpiler/mod.rs`),
parameterised by the iteration order of the keyword table. -/
def compilerTranspileWith (kws : List (String × String)) (source : String) :
    Except NullScriptError String :=
  let o := source.data
  -- class declarations: `model\s+([i])\s*\{` → `class $1 {`
  let o := replaceAll [TL "model", W1, identG, W0, TL "\x7b"]
    [.s "class ".data, .g 1, .s " \x7b".data] o
  -- `(\s{4,})fixed\s+([i])\s*;` → ``
  let o := replaceAll [ind4G, TL "fixed", W1, identG, W0, TL ";"] [] o
  -- `(\s{4,})fixed\s+([i])\s*=\s*([^;]+);` → ``
  let o := replaceAll
    [ind4G, TL "fixed", W1, identG, W0, TL "=", W0, .grp [.plus .nonSemi], TL ";"] [] o
  -- `\brun\s+forever\s+([i])\s*\(([^)]*)\)\s*\{` → `static $1($2) {`
  let o := replaceAll [WB, TL "run", W1, TL "forever", W1, identG, W0, TL "(", parenG, TL ")", W0, TL "\x7b"]
    [.s "static ".data, .g 1, .s "(".data, .g 2, .s ") \x7b".data] o
  -- `(?m)^\s*run\s+later\s+([i])\s*\(([^)]*)\)\s*\{` → `async function $1($2) {`
  let o := replaceAll [.tok .lineStart, W0, TL "run", W1, TL "later", W1, identG, W0, TL "(", parenG, TL ")", W0, TL "\x7b"]
    [.s "async function ".data, .g 1, .s "(".data, .g 2, .s ") \x7b".data] o
  -- `run\s+([i])\s*\(\s*\)\s*\{` → `function $1() {`
  let o := replaceAll [TL "run", W1, identG, W0, TL "(", W0, TL ")", W0, TL "\x7b"]
    [.s "function ".data, .g 1, .s "() \x7b".data] o
  -- `run\s+([i])\s*\(([^)]*)\)\s*\{` → `function $1($2) {`
  let o := replaceAll [TL "run", W1, identG, W0, TL "(", parenG, TL ")", W0, TL "\x7b"]
    [.s "function ".data, .g 1, .s "(".data, .g 2, .s ") \x7b".data] o
  -- `(\s*)run\s+([i])\s*\(\s*\)\s*\{` → `$1function $2() {`
  let o := replaceAll [.grp [.ws0], TL "run", W1, identG, W0, TL "(", W0, TL ")", W0, TL "\x7b"]
    [.g 1, .s "function ".data, .g 2, .s "() \x7b".data] o
  -- `(\s*)run\s+([i])\s*\(([^)]*)\)\s*\{` → `$1function $2($3) {`
  let o := replaceAll [.grp [.ws0], TL "run", W1, identG, W0, TL "(", parenG, TL ")", W0, TL "\x7b"]
    [.g 1, .s "function ".data, .g 2, .s "(".data, .g 3, .s ") \x7b".data] o
  -- `(\s{4,})function\s+([i])\s*\(\s*\)\s*\{` → `$1$2() {`
  let o := replaceAll [ind4G, TL "function", W1, identG, W0, TL "(", W0, TL ")", W0, TL "\x7b"]
    [.g 1, .g 2, .s "() \x7b".data] o
  -- `(\s{4,})function\s+([i])\s*\(([^)]*)\)\s*\{` → `$1$2($3) {`
  let o := replaceAll [ind4G, TL "function", W1, identG, W0, TL "(", parenG, TL ")", W0, TL "\x7b"]
    [.g 1, .g 2, .s "(".data, .g 3, .s ") \x7b".data] o
  -- `(\s{4,})function\s+__init__\s*\(([^)]*)\)\s*\{` → `$1constructor($2) {`
  let o := replaceAll [ind4G, TL "function", W1, TL "__init__", W0, TL "(", parenG, TL ")", W0, TL "\x7b"]
    [.g 1, .s "constructor(".data, .g 2, .s ") \x7b".data] o
  -- `(\s{4,})run\s+__init__\s*\(([^)]*)\)\s*\{` → `$1constructor($2) {`
  let o := replaceAll [ind4G, TL "run", W1, TL "__init__", W0, TL "(", parenG, TL ")", W0, TL "\x7b"]
    [.g 1, .s "constructor(".data, .g 2, .s ") \x7b".data] o
  -- `(\s{4,})async\s+function\s+([i])\s*\(([^)]*)\)\s*\{` → `$1async $2($3) {`
  let o := replaceAll [ind4G, TL "async", W1, TL "function", W1, identG, W0, TL "(", parenG, TL ")", W0, TL "\x7b"]
    [.g 1, .s "async ".data, .g 2, .s "(".data, .g 3, .s ") \x7b".data] o
  -- `(\s{4,})function\s+([i])\s*\(([^)]*)\)\s*\{(\s*await)` → `$1async $2($3) {$4`
  let o := replaceAll [ind4G, TL "function", W1, identG, W0, TL "(", parenG, TL ")", W0, TL "\x7b", .grp [.ws0, .lit "await".data]]
    [.g 1, .s "async ".data, .g 2, .s "(".data, .g 3, .s ") \x7b".data, .g 4] o
  -- `(\s{4,})function\s+([i])\s*\(([^)]*)\)\s*\{(\s*let\s+response\s*=\s*await)` → `$1async $2($3) {$4`
  let o := replaceAll [ind4G, TL "function", W1, identG, W0, TL "(", parenG, TL ")", W0, TL "\x7b",
      .grp [.ws0, .lit "let".data, .ws1, .lit "response".data, .ws0, .lit "=".data, .ws0, .lit "await".data]]
    [.g 1, .s "async ".data, .g 2, .s "(".data, .g 3, .s ") \x7b".data, .g 4] o
  -- `(?m)\brun\s+async\s+([i])\s*\(([^)]*)\)\s*\{` → `async function $1($2) {`
  let o := replaceAll [WB, TL "run", W1, TL "async", W1, identG, W0, TL "(", parenG, TL ")", W0, TL "\x7b"]
    [.s "async function ".data, .g 1, .s "(".data, .g 2, .s ") \x7b".data] o
  -- `(?m)(\s{4,})run\s+async\s+([i])\s*\(([^)]*)\)\s*\{` → `$1async $2($3) {`
  let o := replaceAll [ind4G, TL "run", W1, TL "async", W1, identG, W0, TL "(", parenG, TL ")", W0, TL "\x7b"]
    [.g 1, .s "async ".data, .g 2, .s "(".data, .g 3, .s ") \x7b".data] o
  -- delete-operator pass
  let o := replaceAll removePat [.s "delete ".data, .g 1] o
  -- keyword loop
  let o := compilerKeywordPass kws o
  -- `\bshare\s+default\s+run\s+([i])\s*\(([^)]*)\)\s*\{` → `export default function $1($2) {`
  let o := replaceAll [WB, TL "share", W1, TL "default", W1, TL "run", W1, identG, W0, TL "(", parenG, TL ")", W0, TL "\x7b"]
    [.s "export default function ".data, .g 1, .s "(".data, .g 2, .s ") \x7b".data] o
  -- `(\w+)\s*:\s*run\s*\(` → `$1: function(`
  let o := replaceAll [.grp [.plus .wordC], W0, TL ":", W0, TL "run", W0, TL "("]
    [.g 1, .s ": function(".data] o
  -- `run\s*\(([^)]*)\)\s*\{` → `function($1) {`
  let o := replaceAll [TL "run", W0, TL "(", parenG, TL ")", W0, TL "\x7b"]
    [.s "function(".data, .g 1, .s ") \x7b".data] o
  -- `([a-zA-Z_$][\w$]*)\!` → `$1`
  let o := replaceAll [identG, TL "!"] [.g 1] o
  -- `super\.constructor\(` → `super(`
  let o := replaceAll [TL "super.constructor("] [.s "super(".data] o
  -- `\.JSON\(` → `.json(`
  let o := replaceAll [TL ".JSON("] [.s ".json(".data] o
  -- `([i])\.forever\.([i])\(` → `$1.$2(`
  let o := replaceAll [identG, TL ".forever.", identG, TL "("]
    [.g 1, .s ".".data, .g 2, .s "(".data] o
  -- `([i])\.static\.([i])\(` → `$1.$2(`
  let o := replaceAll [identG, TL ".static.", identG, TL "("]
    [.g 1, .s ".".data, .g 2, .s "(".data] o
  -- `\bimport\s+default\s+as\s+([i])` → `import $1`
  let o := replaceAll [WB, TL "import", W1, TL "default", W1, TL "as", W1, identG]
    [.s "import ".data, .g 1] o
  .ok ⟨o⟩

/-- The `run`-pipeline `transpile` with the table in declaration order. -/
def compilerTranspile (source : String) : Except NullScriptError String :=
  compilerTranspileWith nsKEYWORDS source

end NullScript

namespace NullScript

/-! ### `NullScriptTranspiler::validate_syntax` of `src/compiler/transpiler/mod.rs` -/

/-- `str::find(pat)`: byte index of the first occurrence. -/
def findSub (pat : List Char) : List Char → Option Nat
  | [] => if pat.isPrefixOf [] then some 0 else none
  | c :: rest =>
    if pat.isPrefixOf (c :: rest) then some 0
    else match findSub pat rest with
      | some n => some (n + 1)
      | none => none

/-- The comment-stripped copy scanned by the keyword checks. -/
def codeWithoutComments (lines : List (List Char)) : List Char :=
  lines.foldl (fun acc line =>
    let t := trim line
    if t = [] ∨ "//".data.isPrefixOf t ∨ "/*".data.isPrefixOf t then acc
    else match findSub "//".data line with
      | some idx => acc ++ line.take idx ++ ['\n']
      | none => acc ++ line ++ ['\n']) []

def forbiddenMsg (kw : String) (file : String) : String :=
  "Forbidden TypeScript keyword \x27" ++ kw ++ "\x27 found in NullScript file \x27" ++
  file ++ "\x27.\n❌ TypeScript syntax is not allowed in NullScript files."

def invalidTsMsg (pat : String) (file : String) : String :=
  "Invalid TypeScript syntax \x27" ++ pat ++ "\x27 found in NullScript file \x27" ++
  file ++ "\x27.\n❌ TypeScript syntax is not allowed in NullScript files."

def typeAnnotMsg (file : String) : String :=
  "TypeScript type annotations found in NullScript file \x27" ++ file ++
  "\x27.\n❌ TypeScript syntax is not allowed in NullScript files."

def invalidLineMsg (ln : Nat) (description : String) : String :=
  "Invalid syntax on line " ++ toString ln ++ ": " ++ description ++
  "\n💡 Use NullScript keywords instead of standard JavaScript/TypeScript syntax."

def reservedIdMsg (id description : String) : String :=
  "Cannot use NullScript keyword \x27" ++ id ++ "\x27 as " ++ description ++
  ".\n💡 Choose a different name for your " ++ description ++ "."

def reservedParamMsg (param : String) : String :=
  "Cannot use NullScript keyword \x27" ++ param ++
  "\x27 as function parameter.\n💡 Choose a different name for your function parameter."

/-- The three hard-coded type-annotation regexes. -/
def typeAnnotationPatterns : List (List Item) :=
  [[TL ":", W0, .tok (.one .alphaDollar), .tok (.star .typeChars), .tok (.one .eqCommaParen)],
   [TL ")", W0, TL ":", W0, .tok (.one .alphaDollar), .tok (.star .typeChars), W0, TL "\x7b"],
   [TL "run", W1, .tok (.one .alphaDollar), .tok (.star .wordDollar), W0,
    TL "(", .tok (.star .nonParen), TL ")", W0, TL ":",
    W0, .tok (.one .alphaDollar), .tok (.star .typeChars)]]

/-- The per-line `invalid_patterns` of the `run` dialect, with their
descriptions. -/
def invalidPatternsV2 : List (List Item × String) :=
  [([W0, TL "function", W1, .tok (.plus .wordC), W0, TL "("], "using \x27function\x27 instead of \x27run\x27"),
   ([W0, TL "const", W1, .tok (.plus .wordC)], "using \x27const\x27 instead of \x27fixed\x27"),
   ([W0, TL "if", W0, TL "("], "using \x27if\x27 instead of \x27whatever\x27"),
   ([W0, TL "else", W1], "using \x27else\x27 instead of \x27otherwise\x27"),
   ([W0, TL "true", WB], "using \x27true\x27 instead of \x27yes\x27"),
   ([W0, TL "false", WB], "using \x27false\x27 instead of \x27no\x27"),
   ([W0, TL "class", W1, .tok (.plus .wordC)], "using \x27class\x27 instead of \x27model\x27"),
   ([W0, TL "try", W0, TL "\x7b"], "using \x27try\x27 instead of \x27test\x27"),
   ([W0, TL "catch", W0, TL "("], "using \x27catch\x27 instead of \x27grab\x27"),
   ([W0, TL "finally", W0, TL "\x7b"], "using \x27finally\x27 instead of \x27atLast\x27")]

/-- The `identifier_patterns`: anchored pattern, description, capture index. -/
def identifierPatterns : List (List Item × String × Nat) :=
  [([W0, .grp [.alt ["let".data, "fixed".data, "var".data]], W1, identG, W0, TL "="],
    "variable declaration", 2),
   ([W0, TL "run", W1, identG, W0, TL "("], "function declaration", 1),
   ([W0, TL "model", W1, identG, W0, TL "\x7b"], "class declaration", 1),
   ([W1, TL "run", W1, identG, W0, TL "("], "method declaration", 1)]

/-- `run\s+[a-zA-Z_$][\w$]*\s*\(([^)]*)\)`. -/
def paramPat : List Item :=
  [TL "run", W1, .tok (.one .alphaDollar), .tok (.star .wordDollar), W0, TL "(", parenG, TL ")"]

def splitComma : List Char → List (List Char)
  | [] => [[]]
  | c :: rest =>
    if c = ',' then [] :: splitComma rest
    else
      match splitComma rest with
      | g :: gs => (c :: g) :: gs
      | [] => [[c]]

def findErr {α : Type} (l : List α) (f : α → Option NullScriptError) :
    Except NullScriptError Unit :=
  match l.findSome? f with
  | some e => .error e
  | none => .ok ()

/-- `validate_syntax` of the `run` pipeline (`file_path = None`, so the
reported file name is `"unknown"`). -/
def validateSyntaxC (source : String) : Except NullScriptError Unit :=
  let file := "unknown"
  let lines := splitNl source.data
  let code := codeWithoutComments lines
  match findErr FORBIDDEN_KEYWORDS (fun kw =>
      if isMatch (wordPat kw.data) code then
        some (.syntaxErr (forbiddenMsg kw file) (some 1)) else none) with
  | .error e => .error e
  | .ok _ =>
  match findErr INVALID_SYNTAX (fun pat =>
      if pat.data.contains ' ' ∨ pat.data.contains ':' ∨ pat.data.contains '<' ∨
          pat.data.contains '>' then
        if containsSub pat.data code then
          some (.syntaxErr (invalidTsMsg pat file) (some 1)) else none
      else if isMatch (wordPat pat.data) code then
        some (.syntaxErr (invalidTsMsg pat file) (some 1)) else none) with
  | .error e => .error e
  | .ok _ =>
  match findErr typeAnnotationPatterns (fun p =>
      if isMatch p source.data then
        some (.syntaxErr (typeAnnotMsg file) (some 1)) else none) with
  | .error e => .error e
  | .ok _ =>
  match (lines.enum.findSome? (fun li =>
      let t := trim li.2
      let ln := li.1 + 1
      if t = [] ∨ "//".data.isPrefixOf t ∨ "/*".data.isPrefixOf t then none
      else invalidPatternsV2.findSome? (fun pd =>
        if (matchAtStart pd.1 t).isSome then
          some (NullScriptError.syntaxErr (invalidLineMsg ln pd.2) (some ln)) else none)) : Option NullScriptError) with
  | some e => .error e
  | none =>
  let nsKeys := nsKEYWORDS.map Prod.fst
  match findErr identifierPatterns (fun p =>
      match matchAtStart p.1 source.data with
      | some (_, caps) =>
        let id : String := ⟨trim (caps.getD (p.2.2 - 1) [])⟩
        if nsKeys.contains id then
          some (.syntaxErr (reservedIdMsg id p.2.1) (some 1)) else none
      | none => none) with
  | .error e => .error e
  | .ok _ =>
  match (capturesIter paramPat source.data).findSome? (fun caps =>
      let params := (splitComma (caps.getD 0 [])).map trim
      params.findSome? (fun param =>
        if param ≠ [] ∧ nsKeys.contains (⟨param⟩ : String) then
          some (NullScriptError.syntaxErr (reservedParamMsg ⟨param⟩) (some 1)) else none)) with
  | some e => .error e
  | none => .ok ()

end NullScript

namespace NullScript

/-! ### `ReverseTranspiler` of `src/compiler/reverse_transpiler/mod.rs` -/

/-- The inverse map `js_to_ns_map` built by `ReverseTranspiler::new`
(canonical token → alias); in the table there are no duplicate canonical
tokens, so the map is the swapped table.  The parameter of
`reverseTranspileWith` below is its `HashMap` iteration order. -/
def jsToNsMap : List (String × String) := nsKEYWORDS.map (fun p => (p.2, p.1))

/-- Canonical tokens handled by the dedicated passes and skipped in the
map loop. -/
def reverseSkip : List String :=
  ["function", "const", "let", "var", "if", "else", "for", "while", "try",
   "catch", "finally", "class", "import", "export"]

def reverseMapPass (mapOrder : List (String × String)) (s : List Char) : List Char :=
  mapOrder.foldl (fun acc p =>
    if reverseSkip.contains p.1 then acc
    else replaceAll (wordPat p.1.data) [.s p.2.data] acc) s

/-- All passes of `reverse_transpile` before the final multi-space
cleanup, parameterised by the iteration order of `js_to_ns_map`. -/
def reversePreCollapse (mapOrder : List (String × String)) (jsContent : String) :
    List Char :=
  let o := jsContent.data
  -- `//# sourceMappingURL=.*` → ``
  let o := replaceAll [TL "//# sourceMappingURL=", .tok (.star .nonNl)] [] o
  -- `function\s+([i])\s*\(([^)]*)\)\s*\{` → `run $1($2) {`
  let o := replaceAll [TL "function", W1, identG, W0, TL "(", parenG, TL ")", W0, TL "\x7b"]
    [.s "run ".data, .g 1, .s "(".data, .g 2, .s ") \x7b".data] o
  -- `async\s+function\s+([i])\s*\(([^)]*)\)\s*\{` → `later run $1($2) {`
  let o := replaceAll [TL "async", W1, TL "function", W1, identG, W0, TL "(", parenG, TL ")", W0, TL "\x7b"]
    [.s "later run ".data, .g 1, .s "(".data, .g 2, .s ") \x7b".data] o
  -- `static\s+([i])\s*\(([^)]*)\)\s*\{` → `run forever $1($2) {`
  let o := replaceAll [TL "static", W1, identG, W0, TL "(", parenG, TL ")", W0, TL "\x7b"]
    [.s "run forever ".data, .g 1, .s "(".data, .g 2, .s ") \x7b".data] o
  -- `class\s+([i])\s*\{` → `model $1 {`
  let o := replaceAll [TL "class", W1, identG, W0, TL "\x7b"]
    [.s "model ".data, .g 1, .s " \x7b".data] o
  -- `class\s+([i])\s+extends\s+([i])\s*\{` → `model $1 inherits $2 {`
  let o := replaceAll [TL "class", W1, identG, W1, TL "extends", W1, identG, W0, TL "\x7b"]
    [.s "model ".data, .g 1, .s " inherits ".data, .g 2, .s " \x7b".data] o
  -- `constructor\s*\(([^)]*)\)\s*\{` → `__init__($1) {`
  let o := replaceAll [TL "constructor", W0, TL "(", parenG, TL ")", W0, TL "\x7b"]
    [.s "__init__(".data, .g 1, .s ") \x7b".data] o
  -- `(\s+)([i])\s*\(([^)]*)\)\s*\{` → `$1run $2($3) {`
  let o := replaceAll [.grp [.ws1], identG, W0, TL "(", parenG, TL ")", W0, TL "\x7b"]
    [.g 1, .s "run ".data, .g 2, .s "(".data, .g 3, .s ") \x7b".data] o
  -- variable declarations
  let o := replaceAll (wordPat "const".data) [.s "fixed".data] o
  let o := replaceAll (wordPat "let".data) [.s "let".data] o
  let o := replaceAll (wordPat "var".data) [.s "var".data] o
  -- `import\s+` → `use `, `export\s+` → `share `
  let o := replaceAll [TL "import", W1] [.s "use ".data] o
  let o := replaceAll [TL "export", W1] [.s "share ".data] o
  -- control flow
  let o := replaceAll (wordPat "if".data) [.s "whatever".data] o
  let o := replaceAll (wordPat "else".data) [.s "otherwise".data] o
  let o := replaceAll (wordPat "for".data) [.s "since".data] o
  let o := replaceAll (wordPat "while".data) [.s "when".data] o
  -- try/catch/finally
  let o := replaceAll (wordPat "try".data) [.s "test".data] o
  let o := replaceAll (wordPat "catch".data) [.s "grab".data] o
  let o := replaceAll (wordPat "finally".data) [.s "atLast".data] o
  -- the keyword map loop
  let o := reverseMapPass mapOrder o
  -- operators
  let o := replaceAll [TL "==="] [.s " is ".data] o
  let o := replaceAll [TL "!=="] [.s " isnt ".data] o
  let o := replaceAll [TL "&&"] [.s " and ".data] o
  let o := replaceAll [TL "||"] [.s " or ".data] o
  -- `!(\w+)` → `not $1`
  let o := replaceAll [TL "!", .grp [.plus .wordC]] [.s "not ".data, .g 1] o
  -- `\bnew\s+` → `fresh `
  let o := replaceAll [WB, TL "new", W1] [.s "fresh ".data] o
  -- this / super
  let o := replaceAll (wordPat "this".data) [.s "self".data] o
  let o := replaceAll (wordPat "super".data) [.s "parent".data] o
  -- `\bdelete\s+` → `remove `
  let o := replaceAll [WB, TL "delete", W1] [.s "remove ".data] o
  -- await / async
  let o := replaceAll [WB, TL "await", W1] [.s "hold ".data] o
  let o := replaceAll [WB, TL "async", W1] [.s "later ".data] o
  -- break / continue
  let o := replaceAll (wordPat "break".data) [.s "stop".data] o
  let o := replaceAll (wordPat "continue".data) [.s "keepgoing".data] o
  -- switch / case / default
  let o := replaceAll (wordPat "switch".data) [.s "switch".data] o
  let o := replaceAll (wordPat "case".data) [.s "case".data] o
  let o := replaceAll (wordPat "default".data) [.s "done".data] o
  -- boolean literals
  let o := replaceAll (wordPat "true".data) [.s "yes".data] o
  let o := replaceAll (wordPat "false".data) [.s "no".data] o
  -- typeof / instanceof / in
  let o := replaceAll (wordPat "typeof".data) [.s "what".data] o
  let o := replaceAll (wordPat "instanceof".data) [.s "kind".data] o
  replaceAll (wordPat "in".data) [.s "inside".data] o

/-- `reverse_transpile`, parameterised by the iteration order of
`js_to_ns_map`: the passes above followed by the final `  +` → ` `
cleanup. -/
def reverseTranspileWith (mapOrder : List (String × String)) (jsContent : String) :
    Except NullScriptError String :=
  .ok ⟨replaceAll [.tok (.lit [' ', ' ']), .tok (.chStar ' ')] [.s [' ']]
    (reversePreCollapse mapOrder jsContent)⟩

/-- `reverse_transpile` with the inverse map in table order. -/
def reverseTranspile (jsContent : String) : Except NullScriptError String :=
  reverseTranspileWith jsToNsMap jsContent

/-! ### `suggest_improvements` and `analyze_conversion_quality` -/

def countSubAux (pat : List Char) : Nat → List Char → Nat
  | 0, _ => 0
  | _ + 1, [] => 0
  | fuel + 1, c :: rest =>
    if pat.isPrefixOf (c :: rest) then
      1 + countSubAux pat fuel ((c :: rest).drop pat.length)
    else countSubAux pat fuel rest

/-- `str::matches(pat).count()` for a non-empty pattern. -/
def countSub (pat s : List Char) : Nat :=
  if pat = [] then 0 else countSubAux pat (s.length + 1) s

def hasSub (pat : String) (s : List Char) : Bool := containsSub pat.data s

def suggest_improvements (jsContent : String) : List String :=
  let js := jsContent.data
  (if hasSub "interface " js then
    ["Remove TypeScript interfaces - NullScript doesn\x27t support them"] else []) ++
  (if hasSub "enum " js then
    ["Replace TypeScript enums with objects or constants"] else []) ++
  (if hasSub ": string" js ∨ hasSub ": number" js then
    ["Remove type annotations - NullScript infers types automatically"] else []) ++
  (if hasSub "<T>" js ∨ hasSub "extends T" js then
    ["Remove generic types - NullScript doesn\x27t support generics"] else []) ++
  (if hasSub "Promise.all" js then
    ["Consider using NullScript\x27s promise handling patterns"] else []) ++
  (if hasSub "Array.from" js then
    ["Use list construction patterns instead of Array.from"] else []) ++
  (if hasSub "Object.assign" js then
    ["Use thing.assign for object merging"] else []) ++
  (if hasSub "console.log" js ∧ 10 < countSub "console.log".data js then
    ["Consider reducing console output in production - use speak.say sparingly"] else []) ++
  (if 10000 < js.length then
    ["Large file detected - consider splitting into smaller modules"] else [])

/-- `str::lines().count()`. -/
def linesCount (s : List Char) : Nat :=
  if s = [] then 0
  else s.count '\n' + (if s.getLast? = some '\n' then 0 else 1)

structure ConversionReport where
  original_lines : Nat
  converted_lines : Nat
  conversion_confidence : ℚ
  issues : List String
  warnings : List String
  suggestions : List String
  deriving DecidableEq, Repr

def analyze_conversion_quality (originalJs convertedNs : String) : ConversionReport :=
  let ns := convertedNs.data
  let issues :=
    if hasSub "undefined" ns then
      ["Contains \x27undefined\x27 - verify this is intentional in NullScript"] else []
  let warnings :=
    (if hasSub "==" ns ∨ hasSub "!=" ns then
      ["Uses loose equality operators - consider using \x27is\x27/\x27isnt\x27 for strict comparison"]
     else []) ++
    (if hasSub "var " ns then
      ["Uses \x27var\x27 declarations - consider using \x27let\x27 or \x27fixed\x27 instead"]
     else [])
  let confidence : ℚ :=
    if issues.isEmpty ∧ warnings.length ≤ 2 then
      (if warnings.isEmpty then 95 else 85)
    else if issues.length ≤ 2 then 70
    else 50
  { original_lines := linesCount originalJs.data
    converted_lines := linesCount convertedNs.data
    conversion_confidence := confidence
    issues := issues
    warnings := warnings
    suggestions := suggest_improvements originalJs }

/-! ### `transpile_to_js` of `src/compiler/transpiler/mod.rs`
(read → validate → transpile → write, over the same file-system model) -/

def transpileToJsFS (fs : FSm) (nsPath jsPath : String) :
    Except NullScriptError Unit × FSm :=
  match List.lookup nsPath fs with
  | none => (.error .ioErr, fs)
  | some src =>
    match validateSyntaxC src with
    | .error e => (.error e, fs)
    | .ok _ =>
      match compilerTranspile src with
      | .error e => (.error e, fs)
      | .ok t => (.ok (), (jsPath, t) :: fs)

end NullScript

namespace NullScript

/-- A second possible `HashMap` iteration order for `get_all_keywords`:
the `is` entry first. -/
def kwOrderIsFirst : List (String × String) :=
  ("is", "===") :: getAllKeywords.filter (fun p => p.1 ≠ "is")

/-- No two adjacent spaces. -/
def noDouble : List Char → Bool
  | [] => true
  | [_] => true
  | a :: b :: r => !(a == ' ' && b == ' ') && noDouble (b :: r)


/-- The character preceding the rest of the text after scanning past
`pre`. -/
def prevAfter (prev : Option Char) (pre : List Char) : Option Char :=
  match pre.getLast? with
  | some c => some c
  | none => prev

/-- Word-character status of the previous character (`none` is the text
edge). -/
def prevWord (prev : Option Char) : Bool :=
  match prev with
  | none => false
  | some c => isWordChar c

end NullScript

deriving instance DecidableEq for Except

namespace NullScript

/-! ### Helper lemmas about the scanner -/

theorem scanAux_nil (items : List Item) (f : RF) (orig : List Char) (fuel : Nat)
    (prev : Option Char) (pos : Nat) : scanAux items f orig fuel [] prev pos = [] := by
  cases fuel <;> rfl

theorem scanAux_step_match {items : List Item} (f : RF) (orig : List Char) (fuel : Nat)
    {c : Char} {rest : List Char} {prev : Option Char} (pos : Nat) {n : Nat}
    {caps : List (List Char)}
    (hm : matchItems items (c :: rest) prev = some (n, caps)) (hn : n ≠ 0) :
    scanAux items f orig (fuel + 1) (c :: rest) prev pos =
      f orig pos ((c :: rest).take n) caps ++
        scanAux items f orig fuel ((c :: rest).drop n) ((c :: rest).take n).getLast? (pos + n) := by
  rw [scanAux, hm]
  simp [hn]

theorem scanAux_step_none {items : List Item} (f : RF) (orig : List Char) (fuel : Nat)
    {c : Char} {rest : List Char} {prev : Option Char} (pos : Nat)
    (hm : matchItems items (c :: rest) prev = none) :
    scanAux items f orig (fuel + 1) (c :: rest) prev pos =
      c :: scanAux items f orig fuel rest (some c) (pos + 1) := by
  rw [scanAux, hm]

theorem noDouble_cons (c : Char) (t : List Char) (h1 : noDouble t = true)
    (h2 : ∀ a t', t = a :: t' → (c == ' ' && a == ' ') = false) :
    noDouble (c :: t) = true := by
  cases t with
  | nil => rfl
  | cons a t' =>
    show (!(c == ' ' && a == ' ') && noDouble (a :: t')) = true
    simp [h2 a t' rfl, h1]

theorem collapse_match_eval (r2 : List Char) (prev : Option Char) :
    matchItems [.tok (.lit [' ', ' ']), .tok (.chStar ' ')] (' ' :: ' ' :: r2) prev =
      some (2 + countWhile (fun d => d = ' ') r2, []) := by
  simp [matchItems, matchTok, List.isPrefixOf]

theorem collapse_nomatch_eval (s : List Char) (prev : Option Char)
    (h : [' ', ' '].isPrefixOf s = false) :
    matchItems [.tok (.lit [' ', ' ']), .tok (.chStar ' ')] s prev = none := by
  simp [matchItems, matchTok, h]

theorem drop_two_add (k : Nat) (a b : Char) (l : List Char) :
    (a :: b :: l).drop (2 + k) = l.drop k := by
  rw [Nat.add_comm]
  rfl

theorem drop_countWhile_head (p : Char → Bool) : ∀ (l : List Char) (x : Char),
    (l.drop (countWhile p l)).head? = some x → p x = false := by
  intro l
  induction l with
  | nil => intro x hx; simp at hx
  | cons c rest ih =>
    intro x hx
    by_cases hc : p c
    · simp [countWhile, List.takeWhile, hc] at hx ⊢
      exact ih x (by simpa [countWhile] using hx)
    · simp [countWhile, List.takeWhile, hc] at hx
      subst hx
      simpa using hc

/-- The multi-space cleanup pass never leaves two adjacent spaces, and it
maps the head character through unchanged. -/
theorem scan_collapse_spec (orig : List Char) :
    ∀ (fuel : Nat) (s : List Char) (prev : Option Char) (pos : Nat), s.length < fuel →
      noDouble (scanAux [.tok (.lit [' ', ' ']), .tok (.chStar ' ')]
        (fun _ _ _ caps => render [.s [' ']] caps) orig fuel s prev pos) = true ∧
      (∀ x, (scanAux [.tok (.lit [' ', ' ']), .tok (.chStar ' ')]
        (fun _ _ _ caps => render [.s [' ']] caps) orig fuel s prev pos).head? = some x →
        s.head? = some x) := by
  intro fuel
  induction fuel with
  | zero => intro s prev pos h; omega
  | succ fuel ih =>
    intro s prev pos h
    match s with
    | [] => simp [scanAux, noDouble]
    | [c] =>
      have hpre : ([' ', ' '].isPrefixOf [c]) = false := by
        simp [List.isPrefixOf]
      rw [scanAux_step_none _ _ _ _ (collapse_nomatch_eval _ _ hpre)]
      simp [scanAux_nil, noDouble]
    | c :: b :: r2 =>
      by_cases hcb : c = ' ' ∧ b = ' '
      · obtain ⟨hc, hb⟩ := hcb
        subst hc; subst hb
        have hlen : (r2.drop (countWhile (fun d => d = ' ') r2)).length < fuel := by
          have hd := List.length_drop (countWhile (fun d => d = ' ') r2) r2
          simp at h ⊢
          omega
        rw [scanAux_step_match _ _ _ _ (collapse_match_eval r2 prev) (by omega), drop_two_add]
        refine ⟨noDouble_cons _ _ ?_ ?_, ?_⟩
        · exact (ih _ _ _ hlen).1
        · intro a t' ht'
          have hX : scanAux [.tok (.lit [' ', ' ']), .tok (.chStar ' ')]
              (fun _ _ _ caps => render [.s [' ']] caps) orig fuel
              (r2.drop (countWhile (fun d => d = ' ') r2))
              ((List.take (2 + countWhile (fun d => d = ' ') r2) (' ' :: ' ' :: r2)).getLast?)
              (pos + (2 + countWhile (fun d => d = ' ') r2)) = a :: t' := ht'
          have ha : (r2.drop (countWhile (fun d => d = ' ') r2)).head? = some a :=
            (ih _ _ _ hlen).2 a (by rw [hX]; rfl)
          have hnb := drop_countWhile_head (fun d => d = ' ') r2 a ha
          simp at hnb
          simp [hnb]
        · intro x hx
          exact hx
      · have hpre : ([' ', ' '].isPrefixOf (c :: b :: r2)) = false := by
          have hne : ¬(' ' = c ∧ ' ' = b) := fun ⟨x, y⟩ => hcb ⟨x.symm, y.symm⟩
          simp [List.isPrefixOf]
          tauto
        have hlen : (b :: r2).length < fuel := by
          simp at h ⊢
          omega
        rw [scanAux_step_none _ _ _ _ (collapse_nomatch_eval _ _ hpre)]
        refine ⟨noDouble_cons _ _ ?_ ?_, ?_⟩
        · exact (ih _ _ _ hlen).1
        · intro a t' ht'
          have ha : (b :: r2).head? = some a := (ih (b :: r2) (some c) (pos + 1) hlen).2 a
            (by rw [ht']; rfl)
          have hba : b = a := by simpa using ha
          subst hba
          by_cases hc : c = ' '
          · by_cases hb : b = ' '
            · exact absurd ⟨hc, hb⟩ hcb
            · simp [hc, hb]
          · simp [hc]
        · intro x hx
          exact hx

theorem containsSub_infix_iff (a : List Char) : ∀ b, containsSub a b = true ↔ a <:+: b := by
  intro b
  induction b with
  | nil => simp [containsSub, List.isPrefixOf_iff_prefix]
  | cons c rest ih =>
    simp [containsSub, List.isPrefixOf_iff_prefix, List.infix_cons_iff, ih]

theorem noDouble_not_contains : ∀ t, noDouble t = true → containsSub [' ', ' '] t = false := by
  intro t
  induction t with
  | nil => intro _; decide
  | cons c rest ih =>
    intro h
    have hrest : noDouble rest = true := by
      cases rest with
      | nil => rfl
      | cons b r => simp [noDouble, Bool.and_eq_true] at h; exact h.2
    have hnp : ([' ', ' '].isPrefixOf (c :: rest)) = false := by
      cases rest with
      | nil => simp [List.isPrefixOf]
      | cons b r =>
        simp only [noDouble, Bool.and_eq_true, Bool.not_eq_true'] at h
        simp [List.isPrefixOf]
        intro hc hb
        cases hc
        cases hb
        simp at h
    simp [containsSub, hnp, ih hrest]

theorem replaceAll_collapse_noDouble (X : List Char) :
    noDouble (replaceAll [.tok (.lit [' ', ' ']), .tok (.chStar ' ')] [.s [' ']] X) = true := by
  rw [replaceAll, replaceAllF]
  exact (scan_collapse_spec X (X.length + 1) X none 0 (Nat.lt_succ_self _)).1

theorem data_mk (l : List Char) : (String.mk l).data = l := rfl

theorem reverse_eq (ord : List (String × String)) (s : String) :
    reverseTranspileWith ord s = .ok ⟨replaceAll [.tok (.lit [' ', ' ']), .tok (.chStar ' ')]
      [.s [' ']] (reversePreCollapse ord s)⟩ := rfl

/-- Any output of `reverse_transpile` has no two adjacent spaces. -/
theorem reverse_noDouble (ord : List (String × String)) (s out : String)
    (h : reverseTranspileWith ord s = .ok out) : noDouble out.data = true := by
  rw [reverse_eq] at h
  injection h with h2
  rw [← h2, data_mk]
  exact replaceAll_collapse_noDouble _

theorem matchItems_wb_lit_mismatch {a : Char} {l : List Char} {restI : List Item}
    {s : List Char} {prev : Option Char} (h : (a :: l).isPrefixOf s = false) :
    matchItems (.tok .wb :: .tok (.lit (a :: l)) :: restI) s prev = none := by
  cases hb : boundary prev s.head? <;> simp [matchItems, matchTok, hb, h]

theorem scanAux_id_of_nomatch (items : List Item) (f : RF) (orig : List Char) :
    ∀ (fuel : Nat) (t : List Char) (prev : Option Char) (pos : Nat),
      (∀ u (p : Option Char), u ≠ [] → u <:+ t → matchItems items u p = none) →
      scanAux items f orig fuel t prev pos = t := by
  intro fuel
  induction fuel with
  | zero => intro t prev pos _; rfl
  | succ fuel ih =>
    intro t prev pos h
    cases t with
    | nil => rfl
    | cons c rest =>
      rw [scanAux_step_none _ _ _ _ (h (c :: rest) prev (by simp) (List.suffix_refl _))]
      rw [ih rest (some c) (pos + 1)
        (fun u p hu hsuf => h u p hu (hsuf.trans (List.suffix_cons c rest)))]

theorem suffix_append_cases {u w X : List Char} (h : u <:+ w ++ X) :
    u <:+ X ∨ ∃ w', w' <:+ w ∧ w' ≠ [] ∧ u = w' ++ X := by
  induction w generalizing u with
  | nil => exact Or.inl (by simpa using h)
  | cons c w' ih =>
    rcases h with ⟨pre, hpre⟩
    cases pre with
    | nil =>
      right
      exact ⟨c :: w', List.suffix_refl _, by simp, by have := hpre.symm; simpa using this.symm⟩
    | cons d pre' =>
      have h' : u <:+ w' ++ X := ⟨pre', by have h2 := hpre; simp at h2; exact h2.2⟩
      rcases ih h' with h1 | ⟨w'', hsuf, hne, heq⟩
      · exact Or.inl h1
      · exact Or.inr ⟨w'', hsuf.trans (List.suffix_cons c w'), hne, heq⟩

theorem blank_head_mismatch {a : Char} {l : List Char} {c : Char}
    (ha : a ≠ ' ' ∧ a ≠ '\t') (hc : c = ' ' ∨ c = '\t') (s' : List Char) :
    (a :: l).isPrefixOf (c :: s') = false := by
  rcases hc with h | h <;> subst h <;> simp [List.isPrefixOf] <;>
    intro hh <;> simp [hh] at ha

theorem replaceAll_wbLit_append_id (al : List Char) (restI : List Item)
    (tm : List TItem) (w X : List Char)
    (hw : ∀ c ∈ w, c = ' ' ∨ c = '\t')
    (hnil : al ≠ [])
    (hhd : ∀ c ∈ al.take 1, c ≠ ' ' ∧ c ≠ '\t')
    (hX : ∀ u ∈ X.tails, al.isPrefixOf u = false) :
    replaceAll (.tok .wb :: .tok (.lit al) :: restI) tm (w ++ X) = w ++ X := by
  obtain ⟨a, l, rfl⟩ := List.exists_cons_of_ne_nil hnil
  have ha : a ≠ ' ' ∧ a ≠ '\t' := hhd a (by simp)
  rw [replaceAll, replaceAllF]
  apply scanAux_id_of_nomatch
  intro u p hu hsuf
  rcases suffix_append_cases hsuf with h1 | ⟨w', hw', hne, rfl⟩
  · exact matchItems_wb_lit_mismatch (hX u ((List.mem_tails _ _).mpr h1))
  · obtain ⟨c, w'', rfl⟩ := List.exists_cons_of_ne_nil hne
    have hc : c = ' ' ∨ c = '\t' := hw c (hw'.subset (by simp))
    exact matchItems_wb_lit_mismatch (blank_head_mismatch ha hc _)

theorem prevAfter_nil (prev : Option Char) : prevAfter prev [] = prev := rfl

theorem prevAfter_cons (prev : Option Char) (c : Char) (w : List Char) :
    prevAfter prev (c :: w) = prevAfter (some c) w := by
  cases w with
  | nil => rfl
  | cons d w' =>
    simp only [prevAfter, List.getLast?_cons_cons]
    cases hgl : (d :: w').getLast? with
    | none => simp at hgl
    | some x => rfl

theorem prevAfter_blanks_nonword {w : List Char} (hw : ∀ c ∈ w, c = ' ' ∨ c = '\t') :
    prevWord (prevAfter none w) = false := by
  cases hgl : w.getLast? with
  | none => simp [prevAfter, hgl]; rfl
  | some x =>
    have hx : x ∈ w := List.mem_of_getLast?_eq_some hgl
    have hb := hw x hx
    simp only [prevAfter, hgl]
    rcases hb with h | h <;> subst h <;> rfl

theorem scanAux_append_blanks (items : List Item) (f : RF) (orig : List Char)
    (hblank : ∀ (c : Char), (c = ' ' ∨ c = '\t') → ∀ (s' : List Char) (p : Option Char),
      matchItems items (c :: s') p = none) :
    ∀ (w : List Char), (∀ c ∈ w, c = ' ' ∨ c = '\t') →
    ∀ (t : List Char) (prev : Option Char) (pos fuel : Nat), (w ++ t).length ≤ fuel →
      scanAux items f orig fuel (w ++ t) prev pos =
        w ++ scanAux items f orig (fuel - w.length) t (prevAfter prev w) (pos + w.length) := by
  intro w
  induction w with
  | nil =>
    intro _ t prev pos fuel _
    simp [prevAfter_nil]
  | cons c w' ih =>
    intro hw t prev pos fuel hfuel
    cases fuel with
    | zero => simp at hfuel
    | succ fuel =>
      have hc : c = ' ' ∨ c = '\t' := hw c (by simp)
      rw [show (c :: w') ++ t = c :: (w' ++ t) from rfl,
        scanAux_step_none _ _ _ _ (hblank c hc (w' ++ t) prev)]
      rw [ih (fun x hx => hw x (by simp [hx])) t (some c) (pos + 1) fuel
        (by simp at hfuel ⊢; omega)]
      rw [prevAfter_cons]
      have harith : pos + 1 + w'.length = pos + (c :: w').length := by simp; omega
      have hfuel2 : fuel - w'.length = fuel + 1 - (c :: w').length := by simp
      rw [harith, hfuel2]
      rfl

theorem boundary_nonword_word {prev : Option Char} {c : Char}
    (hp : prevWord prev = false) (hc : isWordChar c = true) :
    boundary prev (some c) = true := by
  cases prev with
  | none => simp [boundary, hc]
  | some d => simp [prevWord] at hp; simp [boundary, hc, hp]

theorem matchItems_wb_cons (restItems : List Item) (s : List Char) (prev : Option Char)
    (hb : boundary prev s.head? = true) :
    matchItems (.tok .wb :: restItems) s prev = matchItems restItems s prev := by
  simp only [matchItems, matchTok, hb, if_true, List.drop_zero]
  cases h : matchItems restItems s prev with
  | none => simp [h]
  | some q => simp [h]

theorem matchItems_lit_step (l : List Char) (restItems : List Item) (s : List Char)
    (prev : Option Char) (hpre : l.isPrefixOf s = true) (hne : l.length ≠ 0) :
    matchItems (.tok (.lit l) :: restItems) s prev =
      Option.map (fun q => (l.length + q.1, q.2))
        (matchItems restItems (s.drop l.length) ((s.take l.length).getLast?)) := by
  simp only [matchItems, matchTok, hpre, if_true]
  rw [if_neg hne]
  cases matchItems restItems (s.drop l.length) ((s.take l.length).getLast?) with
  | none => rfl
  | some q => rfl

theorem named_first_match (prev : Option Char) (hp : prevWord prev = false) :
    matchItems (feelsNamedPat "feels".data) "feels greet(x) \x7b".data prev =
      some (12, ["greet".data]) := by
  have hb : boundary prev ("feels greet(x) \x7b".data).head? = true :=
    boundary_nonword_word hp (by decide)
  simp only [feelsNamedPat]
  rw [matchItems_wb_cons _ _ _ hb,
    matchItems_lit_step "feels".data _ _ _ (by decide) (by decide)]
  decide

theorem splitNl_no_nl : ∀ (l : List Char), (∀ c ∈ l, c ≠ '\n') → splitNl l = [l] := by
  intro l
  induction l with
  | nil => intro _; rfl
  | cons c rest ih =>
    intro h
    have hc : c ≠ '\n' := h c (by simp)
    rw [splitNl, if_neg hc, ih (fun x hx => h x (by simp [hx]))]

theorem takeWhile_append_all (p : Char → Bool) :
    ∀ (l₁ l₂ : List Char), (∀ c ∈ l₁, p c = true) →
      (l₁ ++ l₂).takeWhile p = l₁ ++ l₂.takeWhile p := by
  intro l₁ l₂
  induction l₁ with
  | nil => intro _; rfl
  | cons c rest ih =>
    intro h
    have hc : p c = true := h c (by simp)
    simp only [List.cons_append, List.takeWhile_cons, hc, if_true]
    rw [ih (fun x hx => h x (by simp [hx]))]

theorem feelsRepl_eval (w : List Char) (hw : ∀ c ∈ w, c = ' ' ∨ c = '\t') (hw0 : w ≠ []) :
    feelsRepl "feels".data "function".data (w ++ "feels greet(x) \x7b".data) w.length
      "feels greet(".data ["greet".data] = "greet(".data := by
  have hnl : ∀ c ∈ w ++ "feels greet(x) \x7b".data, c ≠ '\n' := by
    intro c hc
    rcases List.mem_append.mp hc with h | h
    · rcases hw c h with h' | h' <;> subst h' <;> decide
    · exact (by decide : ∀ c ∈ "feels greet(x) \x7b".data, c ≠ '\n') c h
  have hcount : ((w ++ "feels greet(x) \x7b".data).take w.length).count '\n' = 0 := by
    rw [List.take_left]
    exact List.count_eq_zero.mpr (fun hmem => by
      rcases hw _ hmem with h | h <;> simp at h)
  have htw : (w ++ "feels greet(x) \x7b".data).takeWhile isWsChar = w := by
    rw [takeWhile_append_all isWsChar w _ (fun c hc => by
      rcases hw c hc with h | h <;> subst h <;> rfl)]
    simp [List.takeWhile]
    rfl
  simp only [feelsRepl, splitNl_no_nl _ hnl, hcount]
  simp only [List.length_cons, List.length_nil, Nat.zero_lt_one, if_true, List.getD_cons_zero]
  simp only [htw]
  simp only [ne_eq, hw0, not_false_eq_true, if_true]
  decide

theorem genericFold_id (kws : List (String × String)) :
    ∀ (s : List Char), (∀ p ∈ kws, genericEntryPass p.1.data p.2.data s = s) →
      kws.foldl (fun acc q => genericEntryPass q.1.data q.2.data acc) s = s := by
  induction kws with
  | nil => intro s _; rfl
  | cons p rest ih =>
    intro s h
    simp only [List.foldl_cons, h p (by simp)]
    exact ih s (fun q hq => h q (by simp [hq]))

theorem namedPass_eval (w : List Char) (hw : ∀ c ∈ w, c = ' ' ∨ c = '\t') (hw0 : w ≠ []) :
    replaceAllF (feelsNamedPat "feels".data) (feelsRepl "feels".data "function".data)
      (w ++ "feels greet(x) \x7b".data) = w ++ "greet(x) \x7b".data := by
  rw [replaceAllF]
  have hblank : ∀ (c : Char), (c = ' ' ∨ c = '\t') → ∀ (s' : List Char) (p : Option Char),
      matchItems (feelsNamedPat "feels".data) (c :: s') p = none := by
    intro c hc s' p
    exact matchItems_wb_lit_mismatch (blank_head_mismatch (by decide) hc s')
  rw [scanAux_append_blanks _ _ _ hblank w hw _ none 0 _ (by simp)]
  have hfuel : (w ++ "feels greet(x) \x7b".data).length + 1 - w.length = 17 := by
    simp [List.length_append]
    omega
  rw [hfuel, Nat.zero_add]
  have hp : prevWord (prevAfter none w) = false := prevAfter_blanks_nonword hw
  rw [show (17 : Nat) = 16 + 1 from rfl,
    scanAux_step_match _ _ _ _ (named_first_match _ hp) (by decide)]
  have ht1 : List.take 12 "feels greet(x) \x7b".data = "feels greet(".data := by decide
  have ht2 : List.drop 12 "feels greet(x) \x7b".data = "x) \x7b".data := by decide
  rw [ht1, ht2]
  have htail : scanAux (feelsNamedPat "feels".data) (feelsRepl "feels".data "function".data)
      (w ++ "feels greet(x) \x7b".data) 16 "x) \x7b".data
      ("feels greet(".data).getLast? (w.length + 12) = "x) \x7b".data := by
    apply scanAux_id_of_nomatch
    intro u p hu hsuf
    apply matchItems_wb_lit_mismatch
    exact (by decide : ∀ u ∈ ("x) \x7b".data).tails, ("feels".data).isPrefixOf u = false)
      u ((List.mem_tails _ _).mpr hsuf)
  rw [htail, feelsRepl_eval w hw hw0]
  rfl

theorem transpileWith_eq (fn kw mw : List (String × String)) (s : String) :
    transpileWith fn kw mw s = .ok ⟨mw.foldl (fun acc p => multiWordPass p.1.data p.2.data acc)
      (kw.foldl (fun acc p => genericEntryPass p.1.data p.2.data acc)
        (fn.foldl (fun acc p => functionPass p.1.data p.2.data acc) s.data))⟩ := rfl

theorem matchItems_wb_lit_then_none (al : List Char) (restI : List Item)
    (u : List Char) (p : Option Char) (hne : al.length ≠ 0)
    (hpre : al.isPrefixOf u = true)
    (hrest : matchItems restI (u.drop al.length) ((u.take al.length).getLast?) = none) :
    matchItems (.tok .wb :: .tok (.lit al) :: restI) u p = none := by
  cases hb : boundary p u.head? with
  | false => simp [matchItems, matchTok, hb]
  | true =>
    rw [matchItems_wb_cons _ _ _ hb, matchItems_lit_step al restI u p hpre hne, hrest]
    rfl

theorem matchItems_wbLit_tail_none (al : List Char) (restI : List Item)
    (u : List Char) (p : Option Char) (hnil : al ≠ [])
    (h : al.isPrefixOf u = false ∨
      matchItems restI (u.drop al.length) ((u.take al.length).getLast?) = none) :
    matchItems (.tok .wb :: .tok (.lit al) :: restI) u p = none := by
  by_cases hpre : al.isPrefixOf u = true
  · rcases h with h | h
    · rw [hpre] at h; exact absurd h (by simp)
    · exact matchItems_wb_lit_then_none al restI u p
        (fun hl => hnil (List.length_eq_zero.mp hl)) hpre h
  · obtain ⟨a, l, rfl⟩ := List.exists_cons_of_ne_nil hnil
    exact matchItems_wb_lit_mismatch (Bool.not_eq_true _ ▸ eq_false_of_ne_true hpre)

theorem replaceAllF_wbLit_append_id (al : List Char) (restI : List Item)
    (f : RF) (w X : List Char)
    (hw : ∀ c ∈ w, c = ' ' ∨ c = '\t')
    (hnil : al ≠ [])
    (hhd : ∀ c ∈ al.take 1, c ≠ ' ' ∧ c ≠ '\t')
    (hX : ∀ u ∈ X.tails, al.isPrefixOf u = false ∨
      matchItems restI (u.drop al.length) ((u.take al.length).getLast?) = none) :
    replaceAllF (.tok .wb :: .tok (.lit al) :: restI) f (w ++ X) = w ++ X := by
  rw [replaceAllF]
  apply scanAux_id_of_nomatch
  intro u p hu hsuf
  rcases suffix_append_cases hsuf with h1 | ⟨w2, hw2, hne, rfl⟩
  · exact matchItems_wbLit_tail_none al restI u p hnil (hX u ((List.mem_tails _ _).mpr h1))
  · obtain ⟨c, w3, rfl⟩ := List.exists_cons_of_ne_nil hne
    obtain ⟨a, l, rfl⟩ := List.exists_cons_of_ne_nil hnil
    have hc : c = ' ' ∨ c = '\t' := hw c (hw2.subset (by simp))
    exact matchItems_wb_lit_mismatch (blank_head_mismatch (hhd a (by simp)) hc _)


theorem replaceAll_wbLit_append_id2 (al : List Char) (restI : List Item)
    (tm : List TItem) (w X : List Char)
    (hw : ∀ c ∈ w, c = ' ' ∨ c = '\t')
    (hnil : al ≠ [])
    (hhd : ∀ c ∈ al.take 1, c ≠ ' ' ∧ c ≠ '\t')
    (hX : ∀ u ∈ X.tails, al.isPrefixOf u = false ∨
      matchItems restI (u.drop al.length) ((u.take al.length).getLast?) = none) :
    replaceAll (.tok .wb :: .tok (.lit al) :: restI) tm (w ++ X) = w ++ X :=
  replaceAllF_wbLit_append_id al restI _ w X hw hnil hhd hX

theorem async_first_match (prev : Option Char) (hp : prevWord prev = false) :
    matchItems (feelsAsyncPat "feels async".data) "feels async greet(x) \x7b".data prev =
      some (17, ["greet".data]) := by
  have hb : boundary prev ("feels async greet(x) \x7b".data).head? = true :=
    boundary_nonword_word hp (by decide)
  simp only [feelsAsyncPat]
  rw [matchItems_wb_cons _ _ _ hb,
    matchItems_lit_step "feels async".data _ _ _ (by decide) (by decide)]
  decide

theorem asyncPass_eval (w : List Char) (hw : ∀ c ∈ w, c = ' ' ∨ c = '\t') :
    replaceAll (feelsAsyncPat "feels async".data)
      [.s "async function".data, .s [' '], .g 1]
      (w ++ "feels async greet(x) \x7b".data) =
      w ++ "async function greet(x) \x7b".data := by
  rw [replaceAll, replaceAllF]
  have hblank : ∀ (c : Char), (c = ' ' ∨ c = '\t') → ∀ (s' : List Char) (p : Option Char),
      matchItems (feelsAsyncPat "feels async".data) (c :: s') p = none := by
    intro c hc s' p
    exact matchItems_wb_lit_mismatch (blank_head_mismatch (by decide) hc s')
  rw [scanAux_append_blanks _ _ _ hblank w hw _ none 0 _ (by simp)]
  have hfuel : (w ++ "feels async greet(x) \x7b".data).length + 1 - w.length = 23 := by
    simp [List.length_append]
    omega
  rw [hfuel, Nat.zero_add]
  have hp : prevWord (prevAfter none w) = false := prevAfter_blanks_nonword hw
  rw [show (23 : Nat) = 22 + 1 from rfl,
    scanAux_step_match _ _ _ _ (async_first_match _ hp) (by decide)]
  have ht1 : List.take 17 "feels async greet(x) \x7b".data = "feels async greet".data := by decide
  have ht2 : List.drop 17 "feels async greet(x) \x7b".data = "(x) \x7b".data := by decide
  rw [ht1, ht2]
  have htail : scanAux (feelsAsyncPat "feels async".data)
      (fun _ _ _ caps => render [.s "async function".data, .s [' '], .g 1] caps)
      (w ++ "feels async greet(x) \x7b".data) 22 "(x) \x7b".data
      ("feels async greet".data).getLast? (w.length + 17) = "(x) \x7b".data := by
    apply scanAux_id_of_nomatch
    intro u p hu hsuf
    apply matchItems_wb_lit_mismatch
    exact (by decide : ∀ u ∈ ("(x) \x7b".data).tails,
        ("feels async".data).isPrefixOf u = false) u ((List.mem_tails _ _).mpr hsuf)
  rw [htail]
  rfl

theorem anon_first_match (prev : Option Char) (hp : prevWord prev = false) :
    matchItems (feelsAnonPat "feels".data) "feels(x) \x7b".data prev = some (6, []) := by
  have hb : boundary prev ("feels(x) \x7b".data).head? = true :=
    boundary_nonword_word hp (by decide)
  simp only [feelsAnonPat]
  rw [matchItems_wb_cons _ _ _ hb,
    matchItems_lit_step "feels".data _ _ _ (by decide) (by decide)]
  decide

theorem anonPass_eval (w : List Char) (hw : ∀ c ∈ w, c = ' ' ∨ c = '\t') :
    replaceAll (feelsAnonPat "feels".data) [.s ("function".data ++ ['('])]
      (w ++ "feels(x) \x7b".data) = w ++ "function(x) \x7b".data := by
  rw [replaceAll, replaceAllF]
  have hblank : ∀ (c : Char), (c = ' ' ∨ c = '\t') → ∀ (s' : List Char) (p : Option Char),
      matchItems (feelsAnonPat "feels".data) (c :: s') p = none := by
    intro c hc s' p
    exact matchItems_wb_lit_mismatch (blank_head_mismatch (by decide) hc s')
  rw [scanAux_append_blanks _ _ _ hblank w hw _ none 0 _ (by simp)]
  have hfuel : (w ++ "feels(x) \x7b".data).length + 1 - w.length = 11 := by
    simp [List.length_append]
    omega
  rw [hfuel, Nat.zero_add]
  have hp : prevWord (prevAfter none w) = false := prevAfter_blanks_nonword hw
  rw [show (11 : Nat) = 10 + 1 from rfl,
    scanAux_step_match _ _ _ _ (anon_first_match _ hp) (by decide)]
  have ht1 : List.take 6 "feels(x) \x7b".data = "feels(".data := by decide
  have ht2 : List.drop 6 "feels(x) \x7b".data = "x) \x7b".data := by decide
  rw [ht1, ht2]
  have htail : scanAux (feelsAnonPat "feels".data)
      (fun _ _ _ caps => render [.s ("function".data ++ ['('])] caps)
      (w ++ "feels(x) \x7b".data) 10 "x) \x7b".data
      ("feels(".data).getLast? (w.length + 6) = "x) \x7b".data := by
    apply scanAux_id_of_nomatch
    intro u p hu hsuf
    apply matchItems_wb_lit_mismatch
    exact (by decide : ∀ u ∈ ("x) \x7b".data).tails,
        ("feels".data).isPrefixOf u = false) u ((List.mem_tails _ _).mpr hsuf)
  rw [htail]
  rfl


end NullScript

namespace NullScript

set_option maxRecDepth 100000 in
/-- **C1** (counterexample): the claim quantifies over all pairs of
`get_all_keywords`, including the identity pair `("in", "in")` and
`("remove", "delete")`.  For `("in", "in")` the transpiled output of the
minimal source `"in"` still contains the alias `in` as a standalone
word-bounded token (the alias and the canonical token coincide); for
`("remove", "delete")` the output of the minimal source `"remove"` does
not contain the canonical token at all (the delete-operator pass only
fires with an operand).  So the claim as stated is false. -/
theorem c1_counterexample :
    ("in", "in") ∈ getAllKeywords ∧ ("remove", "delete") ∈ getAllKeywords ∧
    transpile "in" = .ok "in" ∧ isMatch (wordPat "in".data) "in".data = true ∧
    transpile "remove" = .ok "remove" ∧
    containsSub "delete".data "remove".data = false := by decide

set_option maxRecDepth 100000 in
/-- **C1** (amended): for every `(alias, canonical)` pair of
`get_all_keywords` whose alias differs from its canonical token and is
neither the `remove` alias nor a function-declaration alias, transpiling
the minimal source consisting of the alias alone yields output that
contains the canonical token and does not contain the alias as a
standalone word-bounded token. -/
theorem c1_amended_alias_rewrite :
    ∀ p ∈ getAllKeywords, p.1 ≠ p.2 →
      p.1 ∉ (["remove", "feels", "feels async"] : List String) →
      (transpile p.1).toOption.any (fun out =>
        containsSub p.2.data out.data && !isMatch (wordPat p.1.data) out.data) = true := by
  decide

set_option maxRecDepth 100000 in
/-- Witness for the amended C1 at the pair `("checkthis", "if")`. -/
theorem c1_amended_alias_rewrite_witness :
    (transpile "checkthis").toOption.any (fun out =>
      containsSub "if".data out.data && !isMatch (wordPat "checkthis".data) out.data) = true :=
  c1_amended_alias_rewrite ("checkthis", "if") (by decide) (by decide) (by decide)

set_option maxRecDepth 100000 in
/-- **C2** (counterexample): forward transpilation is *not* independent of
the iteration order of the keyword `HashMap`.  `kwOrderIsFirst` is a
permutation of the table (so a possible iteration order); on the input
`"remove is"` the declaration order yields `"delete ==="` while the
`is`-first order yields `"remove ==="`: the `is → ===` rewrite destroys
the operand of the later delete-operator pass. -/
theorem c2_counterexample :
    List.Perm kwOrderIsFirst getAllKeywords ∧
    transpile "remove is" = .ok "delete ===" ∧
    transpileWith functionDeclKws kwOrderIsFirst multiWordKws "remove is" =
      .ok "remove ===" := by decide

/-- **C2** (amended): for a fixed iteration order of the keyword tables,
`transpile` is deterministic — any two invocations with the same order on
the same source return identical outputs.  (Independently constructed
transpiler instances may iterate their `HashMap`s differently and can
disagree, as the counterexample shows.) -/
theorem c2_amended_fixed_order_determinism (fnKws kws mwKws : List (String × String))
    (s : String) (o₁ o₂ : Except NullScriptError String)
    (h₁ : transpileWith fnKws kws mwKws s = o₁)
    (h₂ : transpileWith fnKws kws mwKws s = o₂) : o₁ = o₂ :=
  h₁.symm.trans h₂

set_option maxRecDepth 100000 in
/-- Witness for the amended C2 on the input `"remove is"`. -/
theorem c2_amended_fixed_order_determinism_witness :
    (Except.ok "delete ===" : Except NullScriptError String) = .ok "delete ===" :=
  c2_amended_fixed_order_determinism functionDeclKws getAllKeywords multiWordKws "remove is"
    (.ok "delete ===") (.ok "delete ===") (by decide) (by decide)

/-- **C3**: both rewrite pipelines are total and never fail — for every
input string the `run`-pipeline `transpile`, `reverse_transpile`, and the
`feels`-pipeline `transpile` return `Ok` with some output string (the only
Rust error path is regex-pattern construction, which cannot fire with the
static patterns; in the embedding the compiled patterns are values). -/
theorem c3_pipelines_total :
    (∀ s : String, (compilerTranspile s).isOk = true) ∧
    (∀ s : String, (reverseTranspile s).isOk = true) ∧
    (∀ s : String, (transpile s).isOk = true) :=
  ⟨fun _ => rfl, fun _ => rfl, fun _ => rfl⟩

set_option maxRecDepth 100000 in
/-- **C5** (code evaluated at the failing input): a line lying entirely
inside a multi-line block comment *does* trigger a violation —
`validate_syntax` has no `InCode`/`InBlockComment` state machine, it only
skips lines that themselves start with `//` or `/*`; on
`"/*\nconst x = 1;\n*/"` it reports the `const`-line 2 as invalid. -/
theorem c5_block_comment_bug_eval :
    validateSyntax "/*\nconst x = 1;\n*/" =
      .error (.syntaxErr (invalidSyntaxMsgV1 2) (some 2)) := by decide

set_option maxRecDepth 100000 in
/-- **C6**: on a source whose line 2 is `const x = 1;` the `run`-pipeline
validator fails with a `SyntaxError` whose message references `const` and
which carries the 1-based line number 2 of the offending line; a source
using the reserved dialect keyword `whatever` as a variable name fails
with the distinct reserved-keyword-as-identifier error. -/
theorem c6_validator_rejections :
    (validateSyntaxC "fixed a = 1;\nconst x = 1;" =
      .error (.syntaxErr (invalidLineMsg 2 "using \x27const\x27 instead of \x27fixed\x27")
        (some 2))) ∧
    containsSub "const".data
      (invalidLineMsg 2 "using \x27const\x27 instead of \x27fixed\x27").data = true ∧
    (validateSyntaxC "fixed whatever = 1;" =
      .error (.syntaxErr (reservedIdMsg "whatever" "variable declaration") (some 1))) ∧
    reservedIdMsg "whatever" "variable declaration" ≠
      invalidLineMsg 2 "using \x27const\x27 instead of \x27fixed\x27" := by decide

/-- **C8**: file transpilation is atomic with respect to output — for any
file system, if reading, validation or transpilation fails, no output
file is written (the file system is unchanged); an output file is written
only on success and its contents are exactly the full rewritten source.
Both `transpile_file` (`src/transpiler.rs`) and `transpile_to_js`
(`src/compiler/transpiler/mod.rs`) are covered. -/
theorem c8_atomic_file_output (fs : FSm) (i o : String) :
    ((transpileFileFS fs i o).1.isOk = false → (transpileFileFS fs i o).2 = fs) ∧
    (∀ t, (transpileFileFS fs i o).1 = .ok t → (transpileFileFS fs i o).2 = (o, t) :: fs ∧
      ∃ src, List.lookup i fs = some src ∧ transpile src = .ok t) ∧
    ((transpileToJsFS fs i o).1.isOk = false → (transpileToJsFS fs i o).2 = fs) ∧
    ((transpileToJsFS fs i o).1.isOk = true → ∃ src t, List.lookup i fs = some src ∧
      compilerTranspile src = .ok t ∧ (transpileToJsFS fs i o).2 = (o, t) :: fs) := by
  unfold transpileFileFS transpileToJsFS
  rcases h1 : List.lookup i fs with _ | src <;>
    simp only [h1]
  · simp [Except.isOk, Except.toBool]
  · rcases h2 : validateSyntax src with e | u <;>
      rcases h3 : validateSyntaxC src with e' | u' <;>
      rcases h4 : transpile src with e4 | t4 <;>
      rcases h5 : compilerTranspile src with e5 | t5 <;>
      simp [h2, h3, h4, h5, Except.isOk, Except.toBool]

set_option maxRecDepth 100000 in
/-- Witness for C8: a successful call writes exactly the transpiled
source to the output path. -/
theorem c8_atomic_file_output_witness :
    (transpileFileFS [("a.ns", "definitely x = 1;")] "a.ns" "a.ts").2 =
      ("a.ts", "const x = 1;") :: [("a.ns", "definitely x = 1;")] ∧
    ∃ src, List.lookup "a.ns" [("a.ns", "definitely x = 1;")] = some src ∧
      transpile src = .ok "const x = 1;" :=
  (c8_atomic_file_output [("a.ns", "definitely x = 1;")] "a.ns" "a.ts").2.1
    "const x = 1;" (by decide)

/-- **C9**: `analyze_conversion_quality` always returns a confidence in
`[0, 100]`; and when the converted source contains `var ` declarations but
no `undefined` and no loose-equality substring (`==`/`!=`), the confidence
is 85 — strictly below the ceiling 95 and within the "good, minor
warnings" band of at least 75. -/
theorem c9_confidence_bounds :
    (∀ o c : String, 0 ≤ (analyze_conversion_quality o c).conversion_confidence ∧
      (analyze_conversion_quality o c).conversion_confidence ≤ 100) ∧
    (∀ o c : String, hasSub "var " c.data = true → hasSub "undefined" c.data = false →
      hasSub "==" c.data = false → hasSub "!=" c.data = false →
      75 ≤ (analyze_conversion_quality o c).conversion_confidence ∧
      (analyze_conversion_quality o c).conversion_confidence < 95) := by
  constructor
  · intro o c
    simp only [analyze_conversion_quality]
    split_ifs <;> norm_num
  · intro o c h1 h2 h3 h4
    simp only [analyze_conversion_quality, h1, h2, h3, h4]
    norm_num

set_option maxRecDepth 100000 in
/-- Witness for C9 on canonical source with three `var` declarations. -/
theorem c9_confidence_bounds_witness :
    75 ≤ (analyze_conversion_quality "x" "var a;\nvar b;\nvar c;").conversion_confidence ∧
    (analyze_conversion_quality "x" "var a;\nvar b;\nvar c;").conversion_confidence < 95 :=
  c9_confidence_bounds.2 "x" "var a;\nvar b;\nvar c;" (by decide) (by decide)
    (by decide) (by decide)

/-- **C10**: the final cleanup of `reverse_transpile` replaces every run
of two or more consecutive spaces with a single space, everywhere in the
text — including inside string and template literals.  Hence any literal
text containing a multi-space run is never preserved verbatim in the
output, for every input. -/
theorem c10_space_runs_collapsed (s lit out : String)
    (hl : containsSub [' ', ' '] lit.data = true)
    (ho : reverseTranspile s = .ok out) :
    containsSub lit.data out.data = false := by
  have hnd : noDouble out.data = true := reverse_noDouble jsToNsMap s out ho
  by_contra hc
  have hc' : containsSub lit.data out.data = true := by
    revert hc
    cases containsSub lit.data out.data <;> simp
  have h1 : lit.data <:+: out.data := (containsSub_infix_iff _ _).mp hc'
  have h2 : ([' ', ' '] : List Char) <:+: lit.data := (containsSub_infix_iff _ _).mp hl
  have h3 : containsSub [' ', ' '] out.data = true :=
    (containsSub_infix_iff _ _).mpr (h2.trans h1)
  rw [noDouble_not_contains _ hnd] at h3
  exact Bool.false_ne_true h3

set_option maxRecDepth 100000 in
/-- Witness for C10 with the literal `"a  b"`. -/
theorem c10_space_runs_collapsed_witness :
    containsSub "a  b".data "y".data = false :=
  c10_space_runs_collapsed "y" "a  b" "y" (by decide) (by decide)

end NullScript

namespace NullScript

set_option maxRecDepth 100000 in
/-- **C4** (counterexample): the claimed indented behaviour fails for the
other function-declaration forms — at four-space indentation a
`feels async` declaration is rewritten to `    async function greet(x) {`
and an anonymous `feels(x) {` to `    function(x) {`; both outputs keep
the canonical function keyword instead of the claimed bare
method-name form. -/
theorem c4_counterexample :
    (transpile "    feels async greet(x) \x7b" =
      .ok "    async function greet(x) \x7b" ∧
     containsSub "function".data "    async function greet(x) \x7b".data = true) ∧
    (transpile "    feels(x) \x7b" = .ok "    function(x) \x7b" ∧
     containsSub "function".data "    function(x) \x7b".data = true) := by
  refine ⟨⟨by decide, by decide⟩, ⟨by decide, by decide⟩⟩

set_option maxRecDepth 100000 in
/-- **C4** (amended): only the named single-word-alias pass is
indentation-sensitive. For any all-blank leading whitespace `w` (spaces
and tabs): the named form `feels greet(x) {` transpiles to a top-level
`function greet(x) {` when `w` is empty and to the bare method form
`greet(x) {` when `w` is non-empty; the `feels async greet(x) {` form and
the anonymous `feels(x) {` form keep their canonical `async function` and
`function` keywords at every indentation. -/
theorem c4_amended_indentation (w : List Char) (hw : ∀ c ∈ w, c = ' ' ∨ c = '\t') :
    (transpile ⟨w ++ "feels greet(x) \x7b".data⟩ =
      .ok ⟨w ++ (if w = [] then "function greet(x) \x7b".data
                 else "greet(x) \x7b".data)⟩) ∧
    (transpile ⟨w ++ "feels async greet(x) \x7b".data⟩ =
      .ok ⟨w ++ "async function greet(x) \x7b".data⟩) ∧
    (transpile ⟨w ++ "feels(x) \x7b".data⟩ =
      .ok ⟨w ++ "function(x) \x7b".data⟩) := by
  refine ⟨?_, ?_, ?_⟩
  · by_cases hw0 : w = []
    · subst hw0
      decide
    · rw [if_neg hw0, transpile, transpileWith_eq, data_mk]
      have haA : functionPass "feels async".data "async function".data
          (w ++ "feels greet(x) \x7b".data) = w ++ "feels greet(x) \x7b".data := by
        have hcond : containsSub "async".data "feels async".data = true := by decide
        simp only [functionPass, hcond, if_true]
        exact replaceAll_wbLit_append_id "feels async".data
          [.tok .ws1, .grp [.one .alphaDollar, .star .wordDollar]] _ w _ hw
          (by decide) (by decide) (by decide)
      have haB : functionPass "feels".data "function".data
          (w ++ "feels greet(x) \x7b".data) = w ++ "greet(x) \x7b".data := by
        have hcond : containsSub "async".data "feels".data = false := by decide
        simp only [functionPass, hcond, Bool.false_eq_true, if_false]
        rw [namedPass_eval w hw hw0]
        exact replaceAll_wbLit_append_id "feels".data [.tok .ws0, .tok (.lit ['('])]
          _ w _ hw (by decide) (by decide) (by decide)
      have hkw : getAllKeywords.foldl
          (fun acc p => genericEntryPass p.1.data p.2.data acc)
          (w ++ "greet(x) \x7b".data) = w ++ "greet(x) \x7b".data := by
        apply genericFold_id
        intro p hp
        have hfacts := (by decide : ∀ p ∈ getAllKeywords, p.1.data ≠ [] ∧
            (∀ c ∈ p.1.data.take 1, c ≠ ' ' ∧ c ≠ '\t') ∧
            (∀ u ∈ ("greet(x) \x7b".data).tails, p.1.data.isPrefixOf u = false)) p hp
        by_cases h1 : p.1.data = "feels".data ∨ p.1.data = "feels async".data
        · simp only [genericEntryPass, h1, if_true]
        · by_cases h2 : p.1.data = "remove".data
          · simp only [genericEntryPass, h1, h2, if_false, if_true]
            have hrem : ∀ u ∈ ("greet(x) \x7b".data).tails,
                ("remove".data).isPrefixOf u = false := by
              intro u hu
              have := hfacts.2.2 u hu
              rw [h2] at this
              exact this
            exact replaceAll_wbLit_append_id "remove".data
              [.tok .ws1, .grp [.identPath], .tok .wb] _ w _ hw (by decide) (by decide) hrem
          · simp only [genericEntryPass, h1, h2, if_false]
            exact replaceAll_wbLit_append_id p.1.data [.tok .wb] _ w _ hw
              hfacts.1 hfacts.2.1 hfacts.2.2
      have hmw : multiWordKws.foldl
          (fun acc p => multiWordPass p.1.data p.2.data acc)
          (w ++ "greet(x) \x7b".data) = w ++ "greet(x) \x7b".data := by
        simp only [multiWordKws, List.foldl_cons, List.foldl_nil]
        show replaceAll [.tok .wb, .tok (.lit "orsomething".data), .tok .ws1]
          [.s "else if".data, .s [' ']] (w ++ "greet(x) \x7b".data) = _
        exact replaceAll_wbLit_append_id "orsomething".data [.tok .ws1] _ w _ hw
          (by decide) (by decide) (by decide)
      simp only [functionDeclKws, List.foldl_cons, List.foldl_nil]
      rw [haA, haB, hkw, hmw]
  · rw [transpile, transpileWith_eq, data_mk]
    have haA : functionPass "feels async".data "async function".data
        (w ++ "feels async greet(x) \x7b".data) =
        w ++ "async function greet(x) \x7b".data := by
      have hcond : containsSub "async".data "feels async".data = true := by decide
      simp only [functionPass, hcond, if_true]
      exact asyncPass_eval w hw
    have haB : functionPass "feels".data "function".data
        (w ++ "async function greet(x) \x7b".data) =
        w ++ "async function greet(x) \x7b".data := by
      have hcond : containsSub "async".data "feels".data = false := by decide
      simp only [functionPass, hcond, Bool.false_eq_true, if_false]
      have hs1 : replaceAllF (feelsNamedPat "feels".data)
          (feelsRepl "feels".data "function".data)
          (w ++ "async function greet(x) \x7b".data) =
          w ++ "async function greet(x) \x7b".data :=
        replaceAllF_wbLit_append_id "feels".data
          [.tok .ws1, .grp [.one .alphaDollar, .star .wordDollar],
           .tok .ws0, .tok .optAngle, .tok .ws0, .tok (.lit ['('])] _ w _ hw
          (by decide) (by decide) (by decide)
      rw [hs1]
      exact replaceAll_wbLit_append_id "feels".data [.tok .ws0, .tok (.lit ['('])]
        _ w _ hw (by decide) (by decide) (by decide)
    have hkw : getAllKeywords.foldl
        (fun acc p => genericEntryPass p.1.data p.2.data acc)
        (w ++ "async function greet(x) \x7b".data) =
        w ++ "async function greet(x) \x7b".data := by
      apply genericFold_id
      intro p hp
      have hfacts := (by decide : ∀ p ∈ getAllKeywords, p.1.data ≠ [] ∧
          (∀ c ∈ p.1.data.take 1, c ≠ ' ' ∧ c ≠ '\t') ∧
          (∀ u ∈ ("async function greet(x) \x7b".data).tails,
            p.1.data.isPrefixOf u = false ∨
            matchItems [Item.tok Tok.wb] (u.drop p.1.data.length)
              ((u.take p.1.data.length).getLast?) = none)) p hp
      by_cases h1 : p.1.data = "feels".data ∨ p.1.data = "feels async".data
      · simp only [genericEntryPass, h1, if_true]
      · by_cases h2 : p.1.data = "remove".data
        · simp only [genericEntryPass, h1, h2, if_false, if_true]
          exact replaceAll_wbLit_append_id "remove".data
            [.tok .ws1, .grp [.identPath], .tok .wb] _ w _ hw (by decide) (by decide)
            (by decide)
        · simp only [genericEntryPass, h1, h2, if_false]
          exact replaceAll_wbLit_append_id2 p.1.data [.tok .wb] _ w _ hw
            hfacts.1 hfacts.2.1 hfacts.2.2
    have hmw : multiWordKws.foldl
        (fun acc p => multiWordPass p.1.data p.2.data acc)
        (w ++ "async function greet(x) \x7b".data) =
        w ++ "async function greet(x) \x7b".data := by
      simp only [multiWordKws, List.foldl_cons, List.foldl_nil]
      show replaceAll [.tok .wb, .tok (.lit "orsomething".data), .tok .ws1]
        [.s "else if".data, .s [' ']] (w ++ "async function greet(x) \x7b".data) = _
      exact replaceAll_wbLit_append_id "orsomething".data [.tok .ws1] _ w _ hw
        (by decide) (by decide) (by decide)
    simp only [functionDeclKws, List.foldl_cons, List.foldl_nil]
    rw [haA, haB, hkw, hmw]
  · rw [transpile, transpileWith_eq, data_mk]
    have haA : functionPass "feels async".data "async function".data
        (w ++ "feels(x) \x7b".data) = w ++ "feels(x) \x7b".data := by
      have hcond : containsSub "async".data "feels async".data = true := by decide
      simp only [functionPass, hcond, if_true]
      exact replaceAll_wbLit_append_id "feels async".data
        [.tok .ws1, .grp [.one .alphaDollar, .star .wordDollar]] _ w _ hw
        (by decide) (by decide) (by decide)
    have haB : functionPass "feels".data "function".data
        (w ++ "feels(x) \x7b".data) = w ++ "function(x) \x7b".data := by
      have hcond : containsSub "async".data "feels".data = false := by decide
      simp only [functionPass, hcond, Bool.false_eq_true, if_false]
      have hs1 : replaceAllF (feelsNamedPat "feels".data)
          (feelsRepl "feels".data "function".data)
          (w ++ "feels(x) \x7b".data) = w ++ "feels(x) \x7b".data :=
        replaceAllF_wbLit_append_id "feels".data
          [.tok .ws1, .grp [.one .alphaDollar, .star .wordDollar],
           .tok .ws0, .tok .optAngle, .tok .ws0, .tok (.lit ['('])] _ w _ hw
          (by decide) (by decide) (by decide)
      rw [hs1]
      exact anonPass_eval w hw
    have hkw : getAllKeywords.foldl
        (fun acc p => genericEntryPass p.1.data p.2.data acc)
        (w ++ "function(x) \x7b".data) = w ++ "function(x) \x7b".data := by
      apply genericFold_id
      intro p hp
      have hfacts := (by decide : ∀ p ∈ getAllKeywords, p.1.data ≠ [] ∧
          (∀ c ∈ p.1.data.take 1, c ≠ ' ' ∧ c ≠ '\t') ∧
          (∀ u ∈ ("function(x) \x7b".data).tails,
            p.1.data.isPrefixOf u = false ∨
            matchItems [Item.tok Tok.wb] (u.drop p.1.data.length)
              ((u.take p.1.data.length).getLast?) = none)) p hp
      by_cases h1 : p.1.data = "feels".data ∨ p.1.data = "feels async".data
      · simp only [genericEntryPass, h1, if_true]
      · by_cases h2 : p.1.data = "remove".data
        · simp only [genericEntryPass, h1, h2, if_false, if_true]
          exact replaceAll_wbLit_append_id "remove".data
            [.tok .ws1, .grp [.identPath], .tok .wb] _ w _ hw (by decide) (by decide)
            (by decide)
        · simp only [genericEntryPass, h1, h2, if_false]
          exact replaceAll_wbLit_append_id2 p.1.data [.tok .wb] _ w _ hw
            hfacts.1 hfacts.2.1 hfacts.2.2
    have hmw : multiWordKws.foldl
        (fun acc p => multiWordPass p.1.data p.2.data acc)
        (w ++ "function(x) \x7b".data) = w ++ "function(x) \x7b".data := by
      simp only [multiWordKws, List.foldl_cons, List.foldl_nil]
      show replaceAll [.tok .wb, .tok (.lit "orsomething".data), .tok .ws1]
        [.s "else if".data, .s [' ']] (w ++ "function(x) \x7b".data) = _
      exact replaceAll_wbLit_append_id "orsomething".data [.tok .ws1] _ w _ hw
        (by decide) (by decide) (by decide)
    simp only [functionDeclKws, List.foldl_cons, List.foldl_nil]
    rw [haA, haB, hkw, hmw]

set_option maxRecDepth 100000 in
/-- Witness for the amended C4 at a 4-space indentation. -/
theorem c4_amended_indentation_witness :
    (∀ c ∈ "    ".data, c = ' ' ∨ c = '\t') ∧
    ((transpile ⟨"    ".data ++ "feels greet(x) \x7b".data⟩ =
      .ok ⟨"    ".data ++ (if "    ".data = ([] : List Char)
                 then "function greet(x) \x7b".data
                 else "greet(x) \x7b".data)⟩) ∧
     (transpile ⟨"    ".data ++ "feels async greet(x) \x7b".data⟩ =
      .ok ⟨"    ".data ++ "async function greet(x) \x7b".data⟩) ∧
     (transpile ⟨"    ".data ++ "feels(x) \x7b".data⟩ =
      .ok ⟨"    ".data ++ "function(x) \x7b".data⟩)) :=
  ⟨by decide, c4_amended_indentation "    ".data (by decide)⟩

end NullScript
